import Mathlib

/-! Verification of the evolutionary map generator in `src/main.py`.

The whole program lives in one Python file.  The shallow embedding below
translates it function by function: grids are lists of rows of integer
tile values exactly as in the source (`tile_map[y][x]`), the stateful use
of Python's process-wide `random` module is made explicit as a stream of
draws threaded through every randomness-consuming operation, and the
unbounded `while True` retry loop in `place_rocks` takes explicit fuel,
returning `none` when the retry budget is exhausted (the case where the
loop would never terminate).  All other loops have a statically known
iteration count and are translated as folds over `List.range`. -/

set_option maxHeartbeats 4000000

/-- The constant `MAP_WIDTH = 30`. -/
def MAP_WIDTH : Nat := 30

/-- The constant `MAP_HEIGHT = 30`. -/
def MAP_HEIGHT : Nat := 30

/-- The constant `POPULATION_SIZE = 50`. -/
def POPULATION_SIZE : Nat := 50

/-- The constant `GENERATIONS = 200`. -/
def GENERATIONS : Nat := 200

/-- The tile value `PLAINS = 0`. -/
def PLAINS : Int := 0

/-- The tile value `MOUNTAIN = 1`. -/
def MOUNTAIN : Int := 1

/-- The tile value `RIVER = 2`. -/
def RIVER : Int := 2

/-- The tile value `ROCK = 3`. -/
def ROCK : Int := 3

/-- A map is a list of rows of tile values, indexed `tile_map[y][x]` as in
the source. -/
abbrev TileMap := List (List Int)

/-- Read `tile_map[y][x]`.  Out-of-range reads yield 0; every read in the
source is either bounds-guarded or performed on a well-formed 30×30 grid,
and no negative index reaches a read, so Python's negative-index
wrap-around never fires. -/
def getCell (m : TileMap) (y x : Nat) : Int := (m.getD y []).getD x 0

/-- Write `tile_map[y][x] = v` (a no-op out of range, matching `List.set`). -/
def setCell (m : TileMap) (y x : Nat) (v : Int) : TileMap :=
  m.set y ((m.getD y []).set x v)

/-- A well-formed grid: `MAP_HEIGHT` rows of `MAP_WIDTH` cells each, as is
every grid the source ever constructs. -/
def WF (m : TileMap) : Prop :=
  m.length = MAP_HEIGHT ∧ ∀ row ∈ m, row.length = MAP_WIDTH

/-- State of the process-wide pseudo-random generator used by the `random`
module: an arbitrary stream of draws together with the position of the
next draw.  Each `random.*` call consumes one stream element. -/
structure RNG where
  s : Nat → Nat
  i : Nat

/-- Draw one raw stream value from the generator. -/
def RNG.next (r : RNG) : Nat × RNG := (r.s r.i, ⟨r.s, r.i + 1⟩)

/-- Model of `random.randint(lo, hi)`: a uniform integer in `[lo, hi]`; the drawn
stream value is reduced into the interval, so every in-range value is a
possible outcome. -/
def randint (lo hi : Int) (r : RNG) : Int × RNG :=
  let (v, r) := r.next
  (lo + (v : Int) % (hi - lo + 1), r)

/-- Model of the `random.random() < MUTATION_RATE` test in `mutate`: one draw per cell whose
Boolean outcome decides whether the cell is resampled.  The floating-point
uniform variate is not modelled, only that each draw can independently be
either outcome. -/
def rand_lt_rate (r : RNG) : Bool × RNG :=
  let (v, r) := r.next
  (v == 0, r)

/-- Model of `random.choice(seq)`: pick the element at a drawn index.  (Python
raises on an empty sequence; the embedding returns the empty grid then.) -/
def rand_choice (l : List TileMap) (r : RNG) : TileMap × RNG :=
  let (v, r) := r.next
  (l.getD (v % l.length) [], r)

/-- Translation of `generate_random_map()`: border cells are `MOUNTAIN`, every interior
cell an independent uniform draw from `{0, 1, 2, 3}`. -/
def generate_random_map (r : RNG) : TileMap × RNG :=
  (List.range MAP_HEIGHT).foldl
    (fun (acc : TileMap × RNG) y =>
      let (m, r) := acc
      let (row, r) := (List.range MAP_WIDTH).foldl
        (fun (acc : List Int × RNG) x =>
          let (row, r) := acc
          if x = 0 ∨ x = MAP_WIDTH - 1 ∨ y = 0 ∨ y = MAP_HEIGHT - 1 then
            (row ++ [MOUNTAIN], r)
          else
            let (v, r) := randint 0 3 r
            (row ++ [v], r))
        (([] : List Int), r)
      (m ++ [row], r))
    (([] : TileMap), r)

/-- Translation of `is_in_central_circle(x, y, center, radius)`; the source defaults are
`center = 15`, `radius = 8` and every call site passes them explicitly
below. -/
def is_in_central_circle (x y : Nat) (center radius : Int) : Bool :=
  let dist_sq := ((x : Int) - center) ^ 2 + ((y : Int) - center) ^ 2
  decide (dist_sq ≤ radius ^ 2)

/-- Translation of `enforce_constraints(tile_map)`: force the central circle to `PLAINS`,
then force the four border lines to `MOUNTAIN`. -/
def enforce_constraints (tile_map : TileMap) : TileMap :=
  let m1 := (List.range MAP_HEIGHT).foldl
    (fun m y => (List.range MAP_WIDTH).foldl
      (fun m x => if is_in_central_circle x y 15 8 then setCell m y x PLAINS else m) m)
    tile_map
  let m2 := (List.range MAP_WIDTH).foldl
    (fun m x => setCell (setCell m 0 x MOUNTAIN) (MAP_HEIGHT - 1) x MOUNTAIN) m1
  (List.range MAP_HEIGHT).foldl
    (fun m y => setCell (setCell m y 0 MOUNTAIN) y (MAP_WIDTH - 1) MOUNTAIN) m2

/-- Translation of `get_river_row(x) = int(15 + 3*math.sin(2*math.pi*x/MAP_WIDTH))`,
tabulated at the fixed `MAP_WIDTH = 30`: Lean has no computable
floating-point `sin`, so the thirty values the source expression produces
for `x = 0, …, 29` (truncation toward zero included) are listed
explicitly.  The function is only ever called with `x < 30`. -/
def get_river_row (x : Nat) : Int :=
  [15, 15, 16, 16, 17, 17, 17, 17, 17, 17, 17, 17, 16, 16, 15, 15,
   14, 13, 13, 12, 12, 12, 12, 12, 12, 12, 12, 13, 13, 14].getD x 15

/-- Translation of `place_river(tile_map)`: for every column, paint the three cells
around `get_river_row(x)` with `RIVER`, skipping the two border rows.  The
column index itself is not restricted, so the border columns are painted
too. -/
def place_river (tile_map : TileMap) : TileMap :=
  (List.range MAP_WIDTH).foldl
    (fun m x =>
      let y_river := get_river_row x
      ([-1, 0, 1] : List Int).foldl
        (fun m offset =>
          let yy := y_river + offset
          if 0 < yy ∧ yy < (MAP_HEIGHT : Int) - 1 then setCell m yy.toNat x RIVER else m)
        m)
    tile_map

/-- The `while True` seed search at the top of each `place_rocks` cluster,
with explicit fuel: `none` models the run in which the retry loop never
draws a non-`MOUNTAIN` seed and so never terminates. -/
def pick_seed (tile_map : TileMap) (r : RNG) : Nat → Option (Int × Int × RNG)
  | 0 => none
  | fuel + 1 =>
    let (cx, r) := randint 5 ((MAP_WIDTH : Int) - 5) r
    let (cy, r) := randint 5 ((MAP_HEIGHT : Int) - 5) r
    if getCell tile_map cy.toNat cx.toNat ≠ MOUNTAIN then some (cx, cy, r)
    else pick_seed tile_map r fuel

/-- Translation of `place_rocks(tile_map, num_clusters=8)`: for each cluster, retry-draw
a non-`MOUNTAIN` seed, draw a cluster size in `[3, 5]`, and for that many
iterations paint a random neighbour of the seed `ROCK` if it is an
interior `PLAINS` cell. -/
def place_rocks (tile_map : TileMap) (num_clusters : Nat) (fuel : Nat) (r : RNG) :
    Option (TileMap × RNG) :=
  (List.range num_clusters).foldl
    (fun acc _ => do
      let (m, r) ← acc
      let (cx, cy, r) ← pick_seed m r fuel
      let (cluster_size, r) := randint 3 5 r
      some ((List.range cluster_size.toNat).foldl
        (fun (acc : TileMap × RNG) _ =>
          let (m, r) := acc
          let (dx, r) := randint (-1) 1 r
          let nx := cx + dx
          let (dy, r) := randint (-1) 1 r
          let ny := cy + dy
          if 0 < nx ∧ nx < (MAP_WIDTH : Int) - 1 ∧ 0 < ny ∧ ny < (MAP_HEIGHT : Int) - 1 then
            if getCell m ny.toNat nx.toNat = PLAINS then (setCell m ny.toNat nx.toNat ROCK, r)
            else (m, r)
          else (m, r))
        (m, r)))
    (some (tile_map, r))

/-- One full ConstraintEnforcer pass exactly as `main` applies it after
random generation: `enforce_constraints`, then `place_river`, then
`place_rocks` with its default 8 clusters. -/
def constraint_pass (tile_map : TileMap) (fuel : Nat) (r : RNG) : Option (TileMap × RNG) :=
  place_rocks (place_river (enforce_constraints tile_map)) 8 fuel r

/-- Translation of `calculate_fitness(tile_map)`: sum of the central-circle term, the
mountain-placement term, the per-column river-band term and the
rock-count term. -/
def calculate_fitness (tile_map : TileMap) : Int :=
  let score : Int := 0
  let score := (List.range MAP_HEIGHT).foldl
    (fun s y => (List.range MAP_WIDTH).foldl
      (fun s x =>
        if is_in_central_circle x y 15 8 then
          if getCell tile_map y x = PLAINS then s + 1 else s - 1
        else s) s) score
  let score := (List.range MAP_WIDTH).foldl
    (fun s x => (List.range MAP_HEIGHT).foldl
      (fun s y =>
        if getCell tile_map y x = MOUNTAIN then
          if is_in_central_circle x y 15 13 then s - 10 else s + 5
        else s) s) score
  let score := (List.range MAP_WIDTH).foldl
    (fun s x =>
      let y_river := get_river_row x
      let found_river_in_band := ([-1, 0, 1] : List Int).any
        (fun offset =>
          let yy := y_river + offset
          decide (0 ≤ yy) && decide (yy < (MAP_HEIGHT : Int)) &&
            decide (getCell tile_map yy.toNat x = RIVER))
      if found_river_in_band then s + 50 else s - 500) score
  let rock_cnt := (List.range MAP_HEIGHT).foldl
    (fun c y => (List.range MAP_WIDTH).foldl
      (fun c x => if getCell tile_map y x = ROCK then c + 1 else c) c) (0 : Int)
  if 20 ≤ rock_cnt ∧ rock_cnt ≤ 40 then score + 50 else score - |rock_cnt - 22|

/-- Total number of `ROCK` cells of the 30×30 window: the count the rock
term of `calculate_fitness` computes, as a standalone definition. -/
def rock_count (tile_map : TileMap) : Nat :=
  (List.range MAP_HEIGHT).foldl
    (fun c y => (List.range MAP_WIDTH).foldl
      (fun c x => if getCell tile_map y x = ROCK then c + 1 else c) c) 0

/-- Translation of `crossover(map1, map2)`: rows strictly above the fixed midpoint
`MAP_HEIGHT // 2` come from `map1`, the rest from `map2`; each row is
copied (`row[:]`). -/
def crossover (map1 map2 : TileMap) : TileMap :=
  let mid := MAP_HEIGHT / 2
  (List.range MAP_HEIGHT).foldl
    (fun child y =>
      if y < mid then child ++ [map1.getD y []] else child ++ [map2.getD y []])
    ([] : TileMap)

/-- The per-cell random resampling sweep at the top of `mutate`. -/
def mutate_sweep (tile_map : TileMap) (r : RNG) : TileMap × RNG :=
  (List.range MAP_HEIGHT).foldl
    (fun acc y => (List.range MAP_WIDTH).foldl
      (fun (acc : TileMap × RNG) x =>
        let (m, r) := acc
        let (b, r) := rand_lt_rate r
        if b then
          let (v, r) := randint 0 3 r
          (setCell m y x v, r)
        else (m, r)) acc) (tile_map, r)

/-- The loop inside `mutate` that resets every `ROCK` cell to `PLAINS`
before the rock clusters are repainted. -/
def clear_rocks (tile_map : TileMap) : TileMap :=
  (List.range MAP_HEIGHT).foldl
    (fun m yy => (List.range MAP_WIDTH).foldl
      (fun m xx => if getCell m yy xx = ROCK then setCell m yy xx PLAINS else m) m)
    tile_map

/-- Translation of `mutate(tile_map)`: random sweep, then `enforce_constraints`,
`place_river`, the rock reset, and `place_rocks`. -/
def mutate (tile_map : TileMap) (fuel : Nat) (r : RNG) : Option (TileMap × RNG) :=
  let (m, r) := mutate_sweep tile_map r
  let m := enforce_constraints m
  let m := place_river m
  let m := clear_rocks m
  place_rocks m 8 fuel r

/-- Translation of `sorted(zip(fitness_scores, population), key=lambda x: x[0],
reverse=True)` followed by dropping the scores: a stable descending sort
on the score component, which is what Python's stable `sorted` with
`reverse=True` computes. -/
def sort_by_fitness (fitness_scores : List Int) (population : List TileMap) :
    List TileMap :=
  ((fitness_scores.zip population).mergeSort (fun a b => decide (b.1 ≤ a.1))).map
    Prod.snd

/-- One iteration of the generation loop in `main`: evaluate, sort, carry
the top 5, and fill the remaining slots with mutated crossover children of
parents chosen from the top 15.  The `while` loop appends exactly one
child per iteration, so it runs `POPULATION_SIZE - len(new_population)`
times. -/
def next_generation (population : List TileMap) (fuel : Nat) (r : RNG) :
    Option (List TileMap × RNG) :=
  let fitness_scores := population.map calculate_fitness
  let sorted_pop := sort_by_fitness fitness_scores population
  let new_population := sorted_pop.take 5
  (List.range (POPULATION_SIZE - new_population.length)).foldl
    (fun acc _ => do
      let (np, r) ← acc
      let (parent1, r) := rand_choice (sorted_pop.take 15) r
      let (parent2, r) := rand_choice (sorted_pop.take 15) r
      let child := crossover parent1 parent2
      let (child, r) ← mutate child fuel r
      some (np ++ [child], r))
    (some (new_population, r))

/-- The population-initialisation phase of `main`: `POPULATION_SIZE`
individuals, each randomly generated and then passed through the full
constraint pipeline. -/
def init_population (fuel : Nat) (r : RNG) : Option (List TileMap × RNG) :=
  (List.range POPULATION_SIZE).foldl
    (fun acc _ => do
      let (population, r) ← acc
      let (individual, r) := generate_random_map r
      let individual := enforce_constraints individual
      let individual := place_river individual
      let (individual, r) ← place_rocks individual 8 fuel r
      some (population ++ [individual], r))
    (some (([] : List TileMap), r))

/-! Auxiliary definitions used by the development below: named pieces of
the loops above (so each loop can be characterised in isolation), the
grid properties the claims are about, and concrete inputs. -/

/-- Inner loop of the central-circle pass, for one row. -/
def circle_inner (m : TileMap) (y : Nat) : TileMap :=
  (List.range MAP_WIDTH).foldl
    (fun m x => if is_in_central_circle x y 15 8 then setCell m y x PLAINS else m) m

/-- First loop of `enforce_constraints`: central circle to `PLAINS`. -/
def circle_pass (m : TileMap) : TileMap :=
  (List.range MAP_HEIGHT).foldl (fun m y => circle_inner m y) m

/-- Second loop of `enforce_constraints`: top and bottom border rows. -/
def border_rows_pass (m : TileMap) : TileMap :=
  (List.range MAP_WIDTH).foldl
    (fun m x => setCell (setCell m 0 x MOUNTAIN) (MAP_HEIGHT - 1) x MOUNTAIN) m

/-- Third loop of `enforce_constraints`: left and right border columns. -/
def border_cols_pass (m : TileMap) : TileMap :=
  (List.range MAP_HEIGHT).foldl
    (fun m y => setCell (setCell m y 0 MOUNTAIN) y (MAP_WIDTH - 1) MOUNTAIN) m

/-- The 3-row river band of column `x`: the rows `get_river_row x - 1`,
`get_river_row x`, `get_river_row x + 1`. -/
def in_river_band (x y : Nat) : Prop :=
  (y : Int) = get_river_row x - 1 ∨ (y : Int) = get_river_row x ∨
    (y : Int) = get_river_row x + 1

instance (x y : Nat) : Decidable (in_river_band x y) := by
  unfold in_river_band; infer_instance

/-- The inner offset loop of `place_river` for a single column. -/
def river_col (m : TileMap) (x : Nat) : TileMap :=
  let y_river := get_river_row x
  ([-1, 0, 1] : List Int).foldl
    (fun m offset =>
      let yy := y_river + offset
      if 0 < yy ∧ yy < (MAP_HEIGHT : Int) - 1 then setCell m yy.toNat x RIVER else m)
    m

/-- Inner loop of `clear_rocks`, for one row. -/
def clear_inner (m : TileMap) (yy : Nat) : TileMap :=
  (List.range MAP_WIDTH).foldl
    (fun m xx => if getCell m yy xx = ROCK then setCell m yy xx PLAINS else m) m

/-- What one `place_rocks` pass may do to any single cell: leave it alone,
or turn a `PLAINS` cell into `ROCK`. -/
def RockStep (m m' : TileMap) : Prop :=
  ∀ y x, getCell m' y x = getCell m y x ∨
    (getCell m y x = PLAINS ∧ getCell m' y x = ROCK)

/-- One iteration of the inner cluster loop of `place_rocks`. -/
def cluster_body (cx cy : Int) (acc : TileMap × RNG) : TileMap × RNG :=
  let (m, r) := acc
  let (dx, r) := randint (-1) 1 r
  let nx := cx + dx
  let (dy, r) := randint (-1) 1 r
  let ny := cy + dy
  if 0 < nx ∧ nx < (MAP_WIDTH : Int) - 1 ∧ 0 < ny ∧ ny < (MAP_HEIGHT : Int) - 1 then
    if getCell m ny.toNat nx.toNat = PLAINS then (setCell m ny.toNat nx.toNat ROCK, r)
    else (m, r)
  else (m, r)

/-- One whole cluster of `place_rocks`: seed search, size draw, then the
inner loop.  (`Option.bind`, pair projections and this `match` are
definitionally what the `do` block of `place_rocks` desugars to.) -/
def rock_cluster (fuel : Nat) (p : TileMap × RNG) : Option (TileMap × RNG) :=
  match pick_seed p.1 p.2 fuel with
  | none => none
  | some (cx, cy, r) =>
    some ((List.range (randint 3 5 r).1.toNat).foldl
      (fun acc _ => cluster_body cx cy acc) (p.1, (randint 3 5 r).2))

/-- Border contents after a ConstraintEnforcer pass: Mountain everywhere on
the border except the border-column cells that lie in the river band of
their column, which hold River. -/
def border_ok (m : TileMap) : Prop :=
  ∀ y x, y < MAP_HEIGHT → x < MAP_WIDTH →
    (y = 0 ∨ y = MAP_HEIGHT - 1 ∨ x = 0 ∨ x = MAP_WIDTH - 1) →
    if (x = 0 ∨ x = MAP_WIDTH - 1) ∧ in_river_band x y then getCell m y x = RIVER
    else getCell m y x = MOUNTAIN

/-- Central-circle contents after a ConstraintEnforcer pass: Plains, or a
rock-cluster Rock, or — inside the river band — River. -/
def circle_ok (m : TileMap) : Prop :=
  ∀ y x, y < MAP_HEIGHT → x < MAP_WIDTH → is_in_central_circle x y 15 8 = true →
    getCell m y x = PLAINS ∨ getCell m y x = ROCK ∨
      (getCell m y x = RIVER ∧ in_river_band x y)

/-- For every column, at least one of the three band cells holds River. -/
def river_ok (m : TileMap) : Prop :=
  ∀ x, x < MAP_WIDTH →
    getCell m (get_river_row x - 1).toNat x = RIVER ∨
    getCell m (get_river_row x).toNat x = RIVER ∨
    getCell m (get_river_row x + 1).toNat x = RIVER

/-- Every River cell lies in the band, or is an interior non-circle cell
that already held River in the baseline grid `g`. -/
def river_only (g m : TileMap) : Prop :=
  ∀ y x, y < MAP_HEIGHT → x < MAP_WIDTH → getCell m y x = RIVER →
    in_river_band x y ∨
      (getCell g y x = RIVER ∧
        ¬(y = 0 ∨ y = MAP_HEIGHT - 1 ∨ x = 0 ∨ x = MAP_WIDTH - 1) ∧
        is_in_central_circle x y 15 8 = false)

/-- A generator state whose stream constantly yields `c`. -/
def constRNG (c i : Nat) : RNG := ⟨fun _ => c, i⟩

/-- The seed coordinate `pick_seed` draws from a constant-`c` stream
(`randint 5 25` on a draw of `c`). -/
def seedv (c : Nat) : Int := 5 + (c : Int) % ((MAP_WIDTH : Int) - 5 - 5 + 1)

/-- The all-Plains 30×30 grid, a concrete well-formed input. -/
def plains30 : TileMap := List.replicate 30 (List.replicate 30 PLAINS)

/-- The grid `plains30` with a single River cell at row 3, column 3. -/
def riverdot : TileMap := setCell plains30 3 3 RIVER

/-- The fitness formula exactly as the specification describes it: the sum
of the central-zone term (+1/−1 per circle cell), the mountain-placement
term (−10 inside the radius-13 inner exclusion circle, +5 outside, per
Mountain cell), the river-presence term (+50/−500 per column according to
the 3-row band), and the rock-count term (+50 for a count in [20, 40],
else minus the distance of the count from 22). -/
def spec_score (m : TileMap) : Int :=
  let central_zone_term : Int :=
    ((List.range MAP_HEIGHT).map (fun y =>
      ((List.range MAP_WIDTH).map (fun x =>
        if is_in_central_circle x y 15 8 then
          (if getCell m y x = PLAINS then (1 : Int) else -1)
        else 0)).sum)).sum
  let mountain_term : Int :=
    ((List.range MAP_WIDTH).map (fun x =>
      ((List.range MAP_HEIGHT).map (fun y =>
        if getCell m y x = MOUNTAIN then
          (if is_in_central_circle x y 15 13 then (-10 : Int) else 5)
        else 0)).sum)).sum
  let river_term : Int :=
    ((List.range MAP_WIDTH).map (fun x =>
      if getCell m (get_river_row x - 1).toNat x = RIVER ∨
          getCell m (get_river_row x).toNat x = RIVER ∨
          getCell m (get_river_row x + 1).toNat x = RIVER
      then (50 : Int) else -500)).sum
  let rockCount : Nat :=
    ((List.range MAP_HEIGHT).map (fun y =>
      ((List.range MAP_WIDTH).filter (fun x => decide (getCell m y x = ROCK))).length)).sum
  let rock_term : Int :=
    if 20 ≤ rockCount ∧ rockCount ≤ 40 then 50 else -|(rockCount : Int) - 22|
  central_zone_term + mountain_term + river_term + rock_term

/-- Two generator states agree when they will produce the same stream of
draws from their current positions on. -/
def Agree (r r' : RNG) : Prop := ∀ n, r.s (r.i + n) = r'.s (r'.i + n)

/-- The relation between two optional map-and-generator results produced
by runs that drew the same values. -/
def OptAgree (o o' : Option (TileMap × RNG)) : Prop :=
  (o = none ∧ o' = none) ∨
    ∃ u v, o = some u ∧ o' = some v ∧ u.1 = v.1 ∧ Agree u.2 v.2

/-- The generation loop of `main`: `gens` iterations of `next_generation`
starting from a population and generator state (the source runs
`GENERATIONS` iterations). -/
def run_generations (gens fuel : Nat) (p : List TileMap × RNG) :
    Option (List TileMap × RNG) :=
  (List.range gens).foldl
    (fun acc _ => acc.bind (fun q => next_generation q.1 fuel q.2)) (some p)

/-- The final selection of `main`: `best_index = max(range(len(population)),
key=lambda i: final_fitness_scores[i])` keeps the first index whose score
strictly exceeds the current best's, and `best_map = population[best_index]`. -/
def best_map (population : List TileMap) : TileMap :=
  let final_fitness_scores := population.map calculate_fitness
  let best_index := (List.range population.length).foldl
    (fun best i =>
      if final_fitness_scores.getD best 0 < final_fitness_scores.getD i 0 then i
      else best) 0
  population.getD best_index []

/-- One full run of `main` (one iteration of its outer loop): build the
initial population, evolve it for `gens` generations, and return the
best grid together with its fitness score. -/
def full_run (gens fuel : Nat) (r : RNG) : Option (TileMap × Int) :=
  (init_population fuel r).bind (fun p =>
    (run_generations gens fuel p).bind (fun q =>
      some (best_map q.1, calculate_fitness (best_map q.1))))

/-! Section: Basic lemmas about cell reads and writes -/

theorem length_setCell (m : TileMap) (y x : Nat) (v : Int) :
    (setCell m y x v).length = m.length := List.length_set m y _

theorem getD_row_setCell_self (m : TileMap) (y x : Nat) (v : Int) :
    (setCell m y x v).getD y [] = (m.getD y []).set x v := by
  unfold setCell
  rw [List.getD_eq_getElem?_getD, List.getD_eq_getElem?_getD, List.getElem?_set]
  by_cases h : y < m.length
  · simp [h, List.getD_eq_getElem?_getD]
  · have h1 : m[y]? = none := List.getElem?_eq_none (by omega)
    simp [h, h1]

theorem getD_row_setCell_ne (m : TileMap) (y x : Nat) (v : Int) (y' : Nat) (h : y' ≠ y) :
    (setCell m y x v).getD y' [] = m.getD y' [] := by
  unfold setCell
  rw [List.getD_eq_getElem?_getD, List.getElem?_set_ne (fun hc => h hc.symm),
    ← List.getD_eq_getElem?_getD]

theorem getCell_setCell_self (m : TileMap) (y x : Nat) (v : Int)
    (hx : x < (m.getD y []).length) :
    getCell (setCell m y x v) y x = v := by
  unfold getCell
  rw [getD_row_setCell_self,
    List.getD_eq_getElem?_getD ((m.getD y []).set x v) x 0, List.getElem?_set]
  simp only [List.getD_eq_getElem?_getD] at hx
  simp [hx]

theorem getCell_setCell_ne (m : TileMap) (y x : Nat) (v : Int) (y' x' : Nat)
    (h : y' ≠ y ∨ x' ≠ x) :
    getCell (setCell m y x v) y' x' = getCell m y' x' := by
  by_cases hy : y' = y
  · have hx : x' ≠ x := h.resolve_left (fun hc => hc hy)
    rw [hy]
    unfold getCell
    rw [getD_row_setCell_self, List.getD_eq_getElem?_getD ((m.getD y []).set x v) x' 0,
      List.getElem?_set_ne (fun hc => hx hc.symm), ← List.getD_eq_getElem?_getD]
  · unfold getCell
    rw [getD_row_setCell_ne m y x v y' hy]

theorem getCell_ne_default (m : TileMap) (y x : Nat) (h : getCell m y x ≠ 0) :
    y < m.length ∧ x < (m.getD y []).length := by
  unfold getCell at h
  constructor
  · by_contra hy
    have hnone : m[y]? = none := List.getElem?_eq_none (by omega)
    rw [List.getD_eq_getElem?_getD m y [], hnone] at h
    simp at h
  · by_contra hx
    have hnone : (m.getD y [])[x]? = none := List.getElem?_eq_none (by omega)
    rw [List.getD_eq_getElem?_getD (m.getD y []) x 0, hnone] at h
    simp at h

theorem wf_rowlen {m : TileMap} (h : WF m) {y : Nat} (hy : y < MAP_HEIGHT) :
    (m.getD y []).length = MAP_WIDTH := by
  obtain ⟨hlen, hrows⟩ := h
  have hy' : y < m.length := by omega
  rw [List.getD_eq_getElem?_getD, List.getElem?_eq_getElem hy']
  exact hrows _ (List.getElem_mem hy')

theorem wf_setCell {m : TileMap} (h : WF m) (y x : Nat) (v : Int) :
    WF (setCell m y x v) := by
  by_cases hy : y < m.length
  · refine ⟨by rw [length_setCell]; exact h.1, fun row hrow => ?_⟩
    unfold setCell at hrow
    rcases List.mem_or_eq_of_mem_set hrow with hmem | heq
    · exact h.2 _ hmem
    · subst heq
      rw [List.length_set]
      exact wf_rowlen h (by have := h.1; omega)
  · unfold setCell
    rw [List.set_eq_of_length_le (by omega)]
    exact h

theorem wf_getCell_setCell_self {m : TileMap} (h : WF m) {y x : Nat}
    (hy : y < MAP_HEIGHT) (hx : x < MAP_WIDTH) (v : Int) :
    getCell (setCell m y x v) y x = v :=
  getCell_setCell_self m y x v (by rw [wf_rowlen h hy]; exact hx)

/-! Section: Generic characterisation of single-visit folds -/

theorem foldl_pres {σ : Type} (f : σ → Nat → σ) (Q : σ → Prop) (l : List Nat)
    (h : ∀ s j, Q s → j ∈ l → Q (f s j)) : ∀ s, Q s → Q (l.foldl f s) := by
  induction l with
  | nil => intro s hs; exact hs
  | cons a t ih =>
    intro s hs
    exact ih (fun s j hq hj => h s j hq (List.mem_cons_of_mem a hj)) (f s a)
      (h s a hs (List.mem_cons_self a t))

theorem foldl_once_char {σ α : Type} (f : σ → Nat → σ) (obs : σ → Nat → α)
    (φ : α → Nat → α) (P : σ → Prop) (l : List Nat) (hnd : l.Nodup)
    (hP : ∀ s j, P s → j ∈ l → P (f s j))
    (hne : ∀ s j j', P s → j ∈ l → j' ≠ j → obs (f s j) j' = obs s j')
    (hself : ∀ s j, P s → j ∈ l → obs (f s j) j = φ (obs s j) j) :
    ∀ s, P s → P (l.foldl f s) ∧
      (∀ j, j ∉ l → obs (l.foldl f s) j = obs s j) ∧
      (∀ j ∈ l, obs (l.foldl f s) j = φ (obs s j) j) := by
  induction l with
  | nil => intro s hs; exact ⟨hs, fun j _ => rfl, fun j hj => absurd hj (List.not_mem_nil j)⟩
  | cons a t ih =>
    intro s hs
    have hat : a ∉ t := (List.nodup_cons.mp hnd).1
    have hndt : t.Nodup := (List.nodup_cons.mp hnd).2
    have hsa : P (f s a) := hP s a hs (List.mem_cons_self a t)
    obtain ⟨ihP, ihu, ihc⟩ := ih hndt
      (fun s j hq hj => hP s j hq (List.mem_cons_of_mem a hj))
      (fun s j j' hq hj hne' => hne s j j' hq (List.mem_cons_of_mem a hj) hne')
      (fun s j hq hj => hself s j hq (List.mem_cons_of_mem a hj))
      (f s a) hsa
    refine ⟨ihP, ?_, ?_⟩
    · intro j hj
      have hja : j ≠ a := fun hc => hj (hc ▸ List.mem_cons_self a t)
      have hjt : j ∉ t := fun hc => hj (List.mem_cons_of_mem a hc)
      rw [List.foldl_cons, ihu j hjt, hne s a j hs (List.mem_cons_self a t) hja]
    · intro j hj
      rcases List.mem_cons.mp hj with hja | hjt
      · subst hja
        rw [List.foldl_cons, ihu j hat, hself s j hs (List.mem_cons_self j t)]
      · have hja : j ≠ a := fun hc => hat (hc ▸ hjt)
        rw [List.foldl_cons, ihc j hjt, hne s a j hs (List.mem_cons_self a t) hja]

/-! Section: Characterisation of `enforce_constraints` -/

theorem enforce_constraints_eq (m : TileMap) :
    enforce_constraints m = border_cols_pass (border_rows_pass (circle_pass m)) := rfl

theorem circle_inner_other (m : TileMap) (y₀ y' x' : Nat) (h : y' ≠ y₀) :
    getCell (circle_inner m y₀) y' x' = getCell m y' x' := by
  refine foldl_pres _ (fun s => getCell s y' x' = getCell m y' x') _ ?_ m rfl
  intro s j hq hj
  dsimp only
  split
  · rw [getCell_setCell_ne _ _ _ _ _ _ (Or.inl h)]; exact hq
  · exact hq

theorem circle_inner_wf (m : TileMap) (y₀ : Nat) (hwf : WF m) : WF (circle_inner m y₀) := by
  refine foldl_pres _ WF _ ?_ m hwf
  intro s j hq hj
  dsimp only
  split
  · exact wf_setCell hq _ _ _
  · exact hq

theorem circle_inner_char (y₀ : Nat) (hy₀ : y₀ < MAP_HEIGHT) (m : TileMap) (hwf : WF m) :
    (∀ x, x ∉ List.range MAP_WIDTH → getCell (circle_inner m y₀) y₀ x = getCell m y₀ x) ∧
      ∀ x ∈ List.range MAP_WIDTH,
        getCell (circle_inner m y₀) y₀ x =
          if is_in_central_circle x y₀ 15 8 then PLAINS else getCell m y₀ x := by
  have h := foldl_once_char
    (fun m x => if is_in_central_circle x y₀ 15 8 then setCell m y₀ x PLAINS else m)
    (fun s x => getCell s y₀ x)
    (fun v x => if is_in_central_circle x y₀ 15 8 then PLAINS else v)
    WF (List.range MAP_WIDTH) (List.nodup_range _)
    (fun s j hP hj => by dsimp only; split; exacts [wf_setCell hP _ _ _, hP])
    (fun s j j' hP hj hne => by
      dsimp only
      split
      · exact getCell_setCell_ne _ _ _ _ _ _ (Or.inr hne)
      · rfl)
    (fun s j hP hj => by
      dsimp only
      split
      · exact wf_getCell_setCell_self hP hy₀ (List.mem_range.mp hj) _
      · rfl)
    m hwf
  exact ⟨h.2.1, h.2.2⟩

theorem circle_pass_char (m : TileMap) (hwf : WF m) :
    WF (circle_pass m) ∧ ∀ y x, y < MAP_HEIGHT → x < MAP_WIDTH →
      getCell (circle_pass m) y x =
        if is_in_central_circle x y 15 8 then PLAINS else getCell m y x := by
  have h := foldl_once_char
    (fun m y => circle_inner m y)
    (fun s y => fun x => getCell s y x)
    (fun row y => fun x =>
      if x < MAP_WIDTH then (if is_in_central_circle x y 15 8 then PLAINS else row x) else row x)
    WF (List.range MAP_HEIGHT) (List.nodup_range _)
    (fun s j hP hj => circle_inner_wf s j hP)
    (fun s j j' hP hj hne => by
      funext x
      exact circle_inner_other s j j' x hne)
    (fun s j hP hj => by
      funext x
      dsimp only
      by_cases hx : x < MAP_WIDTH
      · rw [if_pos hx]
        exact (circle_inner_char j (List.mem_range.mp hj) s hP).2 x (List.mem_range.mpr hx)
      · rw [if_neg hx]
        exact (circle_inner_char j (List.mem_range.mp hj) s hP).1 x
          (fun hc => hx (List.mem_range.mp hc)))
    m hwf
  refine ⟨h.1, fun y x hy hx => ?_⟩
  have hc := h.2.2 y (List.mem_range.mpr hy)
  have := congrFun hc x
  dsimp only at this
  rw [if_pos hx] at this
  exact this

theorem border_rows_pass_wf (m : TileMap) (hwf : WF m) : WF (border_rows_pass m) := by
  refine foldl_pres _ WF _ ?_ m hwf
  intro s j hq hj
  exact wf_setCell (wf_setCell hq _ _ _) _ _ _

theorem border_rows_pass_char (m : TileMap) (hwf : WF m) :
    WF (border_rows_pass m) ∧ ∀ y x, y < MAP_HEIGHT → x < MAP_WIDTH →
      getCell (border_rows_pass m) y x =
        if y = 0 ∨ y = MAP_HEIGHT - 1 then MOUNTAIN else getCell m y x := by
  have h := foldl_once_char
    (fun m x => setCell (setCell m 0 x MOUNTAIN) (MAP_HEIGHT - 1) x MOUNTAIN)
    (fun s x => fun y => getCell s y x)
    (fun col x => fun y => if y = 0 ∨ y = MAP_HEIGHT - 1 then MOUNTAIN else col y)
    WF (List.range MAP_WIDTH) (List.nodup_range _)
    (fun s j hP hj => wf_setCell (wf_setCell hP _ _ _) _ _ _)
    (fun s j j' hP hj hne => by
      funext y
      dsimp only
      rw [getCell_setCell_ne _ _ _ _ _ _ (Or.inr hne),
        getCell_setCell_ne _ _ _ _ _ _ (Or.inr hne)])
    (fun s j hP hj => by
      funext y
      dsimp only
      have hlast : MAP_HEIGHT - 1 < MAP_HEIGHT := by decide
      by_cases hy1 : y = MAP_HEIGHT - 1
      · subst hy1
        rw [wf_getCell_setCell_self (wf_setCell hP _ _ _) hlast (List.mem_range.mp hj)]
        rw [if_pos (Or.inr rfl)]
      · by_cases hy0 : y = 0
        · subst hy0
          rw [getCell_setCell_ne _ _ _ _ _ _ (Or.inl (fun hc => hy1 hc)),
            wf_getCell_setCell_self hP (by decide) (List.mem_range.mp hj)]
          rw [if_pos (Or.inl rfl)]
        · rw [getCell_setCell_ne _ _ _ _ _ _ (Or.inl (fun hc => hy1 hc)),
            getCell_setCell_ne _ _ _ _ _ _ (Or.inl (fun hc => hy0 hc)),
            if_neg (by tauto)])
    m hwf
  refine ⟨h.1, fun y x hy hx => ?_⟩
  have hc := h.2.2 x (List.mem_range.mpr hx)
  exact congrFun hc y

theorem border_cols_pass_char (m : TileMap) (hwf : WF m) :
    WF (border_cols_pass m) ∧ ∀ y x, y < MAP_HEIGHT → x < MAP_WIDTH →
      getCell (border_cols_pass m) y x =
        if x = 0 ∨ x = MAP_WIDTH - 1 then MOUNTAIN else getCell m y x := by
  have h := foldl_once_char
    (fun m y => setCell (setCell m y 0 MOUNTAIN) y (MAP_WIDTH - 1) MOUNTAIN)
    (fun s y => fun x => getCell s y x)
    (fun row y => fun x => if x = 0 ∨ x = MAP_WIDTH - 1 then MOUNTAIN else row x)
    WF (List.range MAP_HEIGHT) (List.nodup_range _)
    (fun s j hP hj => wf_setCell (wf_setCell hP _ _ _) _ _ _)
    (fun s j j' hP hj hne => by
      funext x
      dsimp only
      rw [getCell_setCell_ne _ _ _ _ _ _ (Or.inl hne),
        getCell_setCell_ne _ _ _ _ _ _ (Or.inl hne)])
    (fun s j hP hj => by
      funext x
      dsimp only
      have hlast : MAP_WIDTH - 1 < MAP_WIDTH := by decide
      by_cases hx1 : x = MAP_WIDTH - 1
      · subst hx1
        rw [wf_getCell_setCell_self (wf_setCell hP _ _ _) (List.mem_range.mp hj) hlast]
        rw [if_pos (Or.inr rfl)]
      · by_cases hx0 : x = 0
        · subst hx0
          rw [getCell_setCell_ne _ _ _ _ _ _ (Or.inr (fun hc => hx1 hc)),
            wf_getCell_setCell_self hP (List.mem_range.mp hj) (by decide)]
          rw [if_pos (Or.inl rfl)]
        · rw [getCell_setCell_ne _ _ _ _ _ _ (Or.inr (fun hc => hx1 hc)),
            getCell_setCell_ne _ _ _ _ _ _ (Or.inr (fun hc => hx0 hc)),
            if_neg (by tauto)])
    m hwf
  refine ⟨h.1, fun y x hy hx => ?_⟩
  have hc := h.2.2 y (List.mem_range.mpr hy)
  exact congrFun hc x

theorem enforce_constraints_wf (m : TileMap) (hwf : WF m) : WF (enforce_constraints m) := by
  rw [enforce_constraints_eq]
  exact (border_cols_pass_char _ ((border_rows_pass_char _ ((circle_pass_char m hwf).1)).1)).1

theorem getCell_enforce_constraints (m : TileMap) (hwf : WF m) (y x : Nat)
    (hy : y < MAP_HEIGHT) (hx : x < MAP_WIDTH) :
    getCell (enforce_constraints m) y x =
      if y = 0 ∨ y = MAP_HEIGHT - 1 ∨ x = 0 ∨ x = MAP_WIDTH - 1 then MOUNTAIN
      else if is_in_central_circle x y 15 8 then PLAINS else getCell m y x := by
  rw [enforce_constraints_eq]
  have h1 := circle_pass_char m hwf
  have h2 := border_rows_pass_char _ h1.1
  have h3 := border_cols_pass_char _ h2.1
  rw [h3.2 y x hy hx]
  by_cases hxb : x = 0 ∨ x = MAP_WIDTH - 1
  · rw [if_pos hxb, if_pos (show y = 0 ∨ y = MAP_HEIGHT - 1 ∨ x = 0 ∨ x = MAP_WIDTH - 1 by
      rcases hxb with h | h
      exacts [Or.inr (Or.inr (Or.inl h)), Or.inr (Or.inr (Or.inr h))])]
  · rw [if_neg hxb, h2.2 y x hy hx]
    by_cases hyb : y = 0 ∨ y = MAP_HEIGHT - 1
    · rw [if_pos hyb, if_pos (show y = 0 ∨ y = MAP_HEIGHT - 1 ∨ x = 0 ∨ x = MAP_WIDTH - 1 by
        rcases hyb with h | h
        exacts [Or.inl h, Or.inr (Or.inl h)])]
    · rw [if_neg hyb, h1.2 y x hy hx,
        if_neg (show ¬(y = 0 ∨ y = MAP_HEIGHT - 1 ∨ x = 0 ∨ x = MAP_WIDTH - 1) by
          intro hc
          rcases hc with h | h | h | h
          exacts [hyb (Or.inl h), hyb (Or.inr h), hxb (Or.inl h), hxb (Or.inr h)])]

/-! Section: Characterisation of `place_river` -/

theorem get_river_row_bounds : ∀ x, x < MAP_WIDTH → 12 ≤ get_river_row x ∧ get_river_row x ≤ 17 := by
  decide

theorem place_river_eq (m : TileMap) :
    place_river m = (List.range MAP_WIDTH).foldl (fun m x => river_col m x) m := rfl

theorem map_height_cast : ((MAP_HEIGHT : Nat) : Int) = 30 := rfl

theorem river_col_eq (m : TileMap) (x₀ : Nat) (hx₀ : x₀ < MAP_WIDTH) :
    river_col m x₀ =
      setCell (setCell (setCell m (get_river_row x₀ + -1).toNat x₀ RIVER)
        (get_river_row x₀ + 0).toNat x₀ RIVER) (get_river_row x₀ + 1).toNat x₀ RIVER := by
  have hb := get_river_row_bounds x₀ hx₀
  unfold river_col
  simp only [List.foldl_cons, List.foldl_nil]
  rw [if_pos (by rw [map_height_cast]; omega), if_pos (by rw [map_height_cast]; omega),
    if_pos (by rw [map_height_cast]; omega)]

theorem river_col_wf (m : TileMap) (x₀ : Nat) (hwf : WF m) (hx₀ : x₀ < MAP_WIDTH) :
    WF (river_col m x₀) := by
  rw [river_col_eq m x₀ hx₀]
  exact wf_setCell (wf_setCell (wf_setCell hwf _ _ _) _ _ _) _ _ _

theorem getCell_river_col_other (m : TileMap) (x₀ : Nat) (hx₀ : x₀ < MAP_WIDTH)
    (y x : Nat) (h : x ≠ x₀) :
    getCell (river_col m x₀) y x = getCell m y x := by
  rw [river_col_eq m x₀ hx₀, getCell_setCell_ne _ _ _ _ _ _ (Or.inr h),
    getCell_setCell_ne _ _ _ _ _ _ (Or.inr h), getCell_setCell_ne _ _ _ _ _ _ (Or.inr h)]

theorem getCell_river_col_self (m : TileMap) (x₀ : Nat) (hwf : WF m) (hx₀ : x₀ < MAP_WIDTH)
    (y : Nat) (hy : y < MAP_HEIGHT) :
    getCell (river_col m x₀) y x₀ = if in_river_band x₀ y then RIVER else getCell m y x₀ := by
  have hb := get_river_row_bounds x₀ hx₀
  rw [river_col_eq m x₀ hx₀]
  by_cases h1 : (y : Int) = get_river_row x₀ + 1
  · have ht : (get_river_row x₀ + 1).toNat = y := by omega
    rw [ht, wf_getCell_setCell_self (wf_setCell (wf_setCell hwf _ _ _) _ _ _) hy hx₀]
    simp [in_river_band, h1]
  · rw [getCell_setCell_ne _ _ _ _ _ _ (Or.inl (fun hc => h1 (by omega)))]
    by_cases h2 : (y : Int) = get_river_row x₀
    · have ht : (get_river_row x₀ + 0).toNat = y := by omega
      rw [ht, wf_getCell_setCell_self (wf_setCell hwf _ _ _) hy hx₀]
      simp [in_river_band, h2]
    · rw [getCell_setCell_ne _ _ _ _ _ _ (Or.inl (fun hc => h2 (by omega)))]
      by_cases h3 : (y : Int) = get_river_row x₀ - 1
      · have ht : (get_river_row x₀ + -1).toNat = y := by omega
        rw [ht, wf_getCell_setCell_self hwf hy hx₀]
        simp [in_river_band, h3]
      · rw [getCell_setCell_ne _ _ _ _ _ _ (Or.inl (fun hc => h3 (by omega)))]
        simp [in_river_band, h1, h2, h3]

theorem getCell_river_col_high (m : TileMap) (x₀ : Nat) (hx₀ : x₀ < MAP_WIDTH)
    (y x : Nat) (hy : ¬ y < MAP_HEIGHT) :
    getCell (river_col m x₀) y x = getCell m y x := by
  by_cases h : x = x₀
  · rw [h]
    have hb := get_river_row_bounds x₀ hx₀
    have hH : MAP_HEIGHT = 30 := rfl
    rw [river_col_eq m x₀ hx₀,
      getCell_setCell_ne _ _ _ _ _ _ (Or.inl (by omega)),
      getCell_setCell_ne _ _ _ _ _ _ (Or.inl (by omega)),
      getCell_setCell_ne _ _ _ _ _ _ (Or.inl (by omega))]
  · exact getCell_river_col_other m x₀ hx₀ y x h

theorem place_river_wf (m : TileMap) (hwf : WF m) : WF (place_river m) := by
  rw [place_river_eq]
  refine foldl_pres _ WF _ ?_ m hwf
  intro s j hq hj
  exact river_col_wf s j hq (List.mem_range.mp hj)

theorem getCell_place_river (m : TileMap) (hwf : WF m) (y x : Nat)
    (hy : y < MAP_HEIGHT) (hx : x < MAP_WIDTH) :
    getCell (place_river m) y x = if in_river_band x y then RIVER else getCell m y x := by
  rw [place_river_eq]
  have h := foldl_once_char
    (fun m x => river_col m x)
    (fun s x => fun y => getCell s y x)
    (fun col x => fun y => if y < MAP_HEIGHT ∧ in_river_band x y then RIVER else col y)
    WF (List.range MAP_WIDTH) (List.nodup_range _)
    (fun s j hP hj => river_col_wf s j hP (List.mem_range.mp hj))
    (fun s j j' hP hj hne => by
      funext y
      exact getCell_river_col_other s j (List.mem_range.mp hj) y j' hne)
    (fun s j hP hj => by
      funext y
      dsimp only
      by_cases hy : y < MAP_HEIGHT
      · rw [getCell_river_col_self s j hP (List.mem_range.mp hj) y hy]
        by_cases hband : in_river_band j y
        · rw [if_pos hband, if_pos ⟨hy, hband⟩]
        · rw [if_neg hband, if_neg (fun hc => hband hc.2)]
      · rw [getCell_river_col_high s j (List.mem_range.mp hj) y j hy,
          if_neg (fun hc => hy hc.1)])
    m hwf
  have hc := congrFun (h.2.2 x (List.mem_range.mpr hx)) y
  dsimp only at hc
  rw [hc]
  by_cases hband : in_river_band x y
  · rw [if_pos ⟨hy, hband⟩, if_pos hband]
  · rw [if_neg (fun hcc => hband hcc.2), if_neg hband]

/-! Section: Characterisation of `clear_rocks` -/

theorem clear_rocks_eq (m : TileMap) :
    clear_rocks m = (List.range MAP_HEIGHT).foldl (fun m yy => clear_inner m yy) m := rfl

theorem rock_ne_zero : ROCK ≠ (0 : Int) := by decide

theorem clear_inner_other (m : TileMap) (y₀ y' x' : Nat) (h : y' ≠ y₀) :
    getCell (clear_inner m y₀) y' x' = getCell m y' x' := by
  refine foldl_pres _ (fun s => getCell s y' x' = getCell m y' x') _ ?_ m rfl
  intro s j hq hj
  dsimp only
  split
  · rw [getCell_setCell_ne _ _ _ _ _ _ (Or.inl h)]; exact hq
  · exact hq

theorem clear_inner_char (y₀ : Nat) (m : TileMap) :
    (∀ x, x ∉ List.range MAP_WIDTH → getCell (clear_inner m y₀) y₀ x = getCell m y₀ x) ∧
      ∀ x ∈ List.range MAP_WIDTH,
        getCell (clear_inner m y₀) y₀ x =
          if getCell m y₀ x = ROCK then PLAINS else getCell m y₀ x := by
  have h := foldl_once_char
    (fun m xx => if getCell m y₀ xx = ROCK then setCell m y₀ xx PLAINS else m)
    (fun s x => getCell s y₀ x)
    (fun v x => if v = ROCK then PLAINS else v)
    (fun _ => True) (List.range MAP_WIDTH) (List.nodup_range _)
    (fun s j _ hj => trivial)
    (fun s j j' _ hj hne => by
      dsimp only
      split
      · exact getCell_setCell_ne _ _ _ _ _ _ (Or.inr hne)
      · rfl)
    (fun s j _ hj => by
      dsimp only
      by_cases hc : getCell s y₀ j = ROCK
      · rw [if_pos hc, if_pos hc]
        have hb := getCell_ne_default s y₀ j (by rw [hc]; exact rock_ne_zero)
        exact getCell_setCell_self s y₀ j PLAINS hb.2
      · rw [if_neg hc, if_neg hc])
    m trivial
  exact ⟨h.2.1, h.2.2⟩

theorem getCell_clear_rocks (m : TileMap) (y x : Nat)
    (hy : y < MAP_HEIGHT) (hx : x < MAP_WIDTH) :
    getCell (clear_rocks m) y x =
      if getCell m y x = ROCK then PLAINS else getCell m y x := by
  rw [clear_rocks_eq]
  have h := foldl_once_char
    (fun m yy => clear_inner m yy)
    (fun s y => fun x => getCell s y x)
    (fun row y => fun x => if x < MAP_WIDTH then (if row x = ROCK then PLAINS else row x) else row x)
    (fun _ => True) (List.range MAP_HEIGHT) (List.nodup_range _)
    (fun s j _ hj => trivial)
    (fun s j j' _ hj hne => by
      funext x
      exact clear_inner_other s j j' x hne)
    (fun s j _ hj => by
      funext x
      dsimp only
      by_cases hx : x < MAP_WIDTH
      · rw [if_pos hx]
        exact (clear_inner_char j s).2 x (List.mem_range.mpr hx)
      · rw [if_neg hx]
        exact (clear_inner_char j s).1 x (fun hc => hx (List.mem_range.mp hc)))
    m trivial
  have hc := congrFun (h.2.2 y (List.mem_range.mpr hy)) x
  dsimp only at hc
  rw [if_pos hx] at hc
  exact hc

theorem clear_inner_wf (m : TileMap) (y₀ : Nat) (hwf : WF m) : WF (clear_inner m y₀) := by
  refine foldl_pres _ WF _ ?_ m hwf
  intro s j hq hj
  dsimp only
  split
  · exact wf_setCell hq _ _ _
  · exact hq

theorem clear_rocks_wf (m : TileMap) (hwf : WF m) : WF (clear_rocks m) := by
  rw [clear_rocks_eq]
  refine foldl_pres _ WF _ ?_ m hwf
  intro s j hq hj
  exact clear_inner_wf s j hq

/-! Section: Sum characterisation of `rock_count` -/

theorem foldl_eq_add_sum {β M : Type} [AddCommMonoid M] (g : β → M) (f : M → β → M)
    (hf : ∀ s a, f s a = s + g a) : ∀ (l : List β) (s : M), l.foldl f s = s + (l.map g).sum := by
  intro l
  induction l with
  | nil => intro s; simp
  | cons a t ih =>
    intro s
    rw [List.foldl_cons, ih (f s a), hf, List.map_cons, List.sum_cons, add_assoc]

theorem sum_list_range {M : Type} [AddCommMonoid M] (g : Nat → M) (n : Nat) :
    ((List.range n).map g).sum = ∑ i in Finset.range n, g i := by
  induction n with
  | zero => simp
  | succ k ih =>
    rw [List.range_succ, List.map_append, List.sum_append, Finset.sum_range_succ, ih]
    simp

theorem rock_count_eq (m : TileMap) :
    rock_count m = ∑ y in Finset.range MAP_HEIGHT, ∑ x in Finset.range MAP_WIDTH,
      (if getCell m y x = ROCK then 1 else 0) := by
  unfold rock_count
  rw [foldl_eq_add_sum
    (fun y => ((List.range MAP_WIDTH).map fun x => if getCell m y x = ROCK then 1 else 0).sum)
    _ (fun s y => foldl_eq_add_sum (fun x => if getCell m y x = ROCK then 1 else 0)
        _ (fun s x => by dsimp only; split <;> omega) _ s)]
  rw [zero_add, sum_list_range]
  congr 1

theorem rock_count_setCell_le (m : TileMap) (y₀ x₀ : Nat) (v : Int) :
    rock_count (setCell m y₀ x₀ v) ≤ rock_count m + 1 := by
  rw [rock_count_eq, rock_count_eq]
  have hy : ∀ y ∈ Finset.range MAP_HEIGHT,
      (∑ x in Finset.range MAP_WIDTH, (if getCell (setCell m y₀ x₀ v) y x = ROCK then 1 else 0)) ≤
        (∑ x in Finset.range MAP_WIDTH, (if getCell m y x = ROCK then 1 else 0)) +
          (if y = y₀ then 1 else 0) := by
    intro y _
    by_cases hyy : y = y₀
    · subst hyy
      rw [if_pos rfl]
      have hx : ∀ x ∈ Finset.range MAP_WIDTH,
          (if getCell (setCell m y x₀ v) y x = ROCK then 1 else 0) ≤
            (if getCell m y x = ROCK then 1 else 0) + (if x = x₀ then 1 else 0) := by
        intro x _
        by_cases hxx : x = x₀
        · subst hxx
          split <;> simp
        · rw [getCell_setCell_ne _ _ _ _ _ _ (Or.inr hxx), if_neg hxx]
          omega
      calc (∑ x in Finset.range MAP_WIDTH, (if getCell (setCell m y x₀ v) y x = ROCK then 1 else 0))
            ≤ ∑ x in Finset.range MAP_WIDTH,
                ((if getCell m y x = ROCK then 1 else 0) + (if x = x₀ then 1 else 0)) :=
              Finset.sum_le_sum hx
        _ = (∑ x in Finset.range MAP_WIDTH, (if getCell m y x = ROCK then 1 else 0)) +
              (∑ x in Finset.range MAP_WIDTH, (if x = x₀ then 1 else 0)) :=
              Finset.sum_add_distrib
        _ ≤ _ := by
              have : (∑ x in Finset.range MAP_WIDTH, (if x = x₀ then (1:Nat) else 0)) ≤ 1 := by
                rw [Finset.sum_ite_eq' (Finset.range MAP_WIDTH) x₀ (fun _ => (1:Nat))]
                split <;> omega
              omega
    · rw [if_neg hyy]
      have : ∀ x ∈ Finset.range MAP_WIDTH,
          (if getCell (setCell m y₀ x₀ v) y x = ROCK then (1:Nat) else 0) =
            (if getCell m y x = ROCK then 1 else 0) := by
        intro x _
        rw [getCell_setCell_ne _ _ _ _ _ _ (Or.inl hyy)]
      rw [Finset.sum_congr rfl this, add_zero]
  calc (∑ y in Finset.range MAP_HEIGHT, ∑ x in Finset.range MAP_WIDTH,
          (if getCell (setCell m y₀ x₀ v) y x = ROCK then 1 else 0))
      ≤ ∑ y in Finset.range MAP_HEIGHT,
          ((∑ x in Finset.range MAP_WIDTH, (if getCell m y x = ROCK then 1 else 0)) +
            (if y = y₀ then 1 else 0)) := Finset.sum_le_sum hy
    _ = (∑ y in Finset.range MAP_HEIGHT, ∑ x in Finset.range MAP_WIDTH,
          (if getCell m y x = ROCK then 1 else 0)) +
          (∑ y in Finset.range MAP_HEIGHT, (if y = y₀ then 1 else 0)) := Finset.sum_add_distrib
    _ ≤ _ := by
        have : (∑ y in Finset.range MAP_HEIGHT, (if y = y₀ then (1:Nat) else 0)) ≤ 1 := by
          rw [Finset.sum_ite_eq' (Finset.range MAP_HEIGHT) y₀ (fun _ => (1:Nat))]
          split <;> omega
        omega

theorem rock_count_zero_of_no_rock (m : TileMap)
    (h : ∀ y x, y < MAP_HEIGHT → x < MAP_WIDTH → getCell m y x ≠ ROCK) :
    rock_count m = 0 := by
  rw [rock_count_eq]
  refine Finset.sum_eq_zero (fun y hy => Finset.sum_eq_zero (fun x hx => ?_))
  rw [if_neg (h y x (Finset.mem_range.mp hy) (Finset.mem_range.mp hx))]

/-! Section: Structure of `place_rocks` -/

theorem randint_bounds (lo hi : Int) (r : RNG) (h : lo ≤ hi) :
    lo ≤ (randint lo hi r).1 ∧ (randint lo hi r).1 ≤ hi := by
  unfold randint RNG.next
  dsimp only
  have h0 : hi - lo + 1 ≠ 0 := by omega
  have h1 : (0:Int) < hi - lo + 1 := by omega
  have h2 := Int.emod_nonneg ((r.s r.i : Int)) h0
  have h3 := Int.emod_lt_of_pos ((r.s r.i : Int)) h1
  omega

theorem randint_s (lo hi : Int) (r : RNG) : ((randint lo hi r).2).s = r.s := rfl

theorem rand_lt_rate_s (r : RNG) : ((rand_lt_rate r).2).s = r.s := rfl

theorem getCell_setCell_cases (m : TileMap) (y x : Nat) (v : Int) :
    getCell (setCell m y x v) y x = v ∨ getCell (setCell m y x v) y x = getCell m y x := by
  by_cases hx : x < (m.getD y []).length
  · exact Or.inl (getCell_setCell_self m y x v hx)
  · right
    unfold getCell
    rw [getD_row_setCell_self, List.set_eq_of_length_le (le_of_not_lt hx)]

theorem rockStep_refl (m : TileMap) : RockStep m m := fun _ _ => Or.inl rfl

theorem rockStep_trans {a b c : TileMap} (h1 : RockStep a b) (h2 : RockStep b c) :
    RockStep a c := by
  intro y x
  rcases h1 y x with hab | ⟨haP, hbR⟩
  · rcases h2 y x with hbc | ⟨hbP, hcR⟩
    · exact Or.inl (hbc.trans hab)
    · exact Or.inr ⟨hab ▸ hbP, hcR⟩
  · rcases h2 y x with hbc | ⟨hbP, hcR⟩
    · exact Or.inr ⟨haP, hbc.trans hbR⟩
    · exact absurd (hbR.symm.trans hbP) (by decide)

theorem place_rocks_eq (m : TileMap) (n fuel : Nat) (r : RNG) :
    place_rocks m n fuel r =
      (List.range n).foldl (fun acc _ => acc.bind (rock_cluster fuel)) (some (m, r)) := by
  unfold place_rocks
  congr 1
  funext acc j
  cases acc with
  | none => rfl
  | some p =>
    obtain ⟨m1, r1⟩ := p
    show (pick_seed m1 r1 fuel).bind _ = (rock_cluster fuel (m1, r1))
    unfold rock_cluster
    dsimp only
    cases hps : pick_seed m1 r1 fuel with
    | none => rfl
    | some trip =>
      obtain ⟨cx, cy, r2⟩ := trip
      rfl

theorem place_rocks_zero (m : TileMap) (fuel : Nat) (r : RNG) :
    place_rocks m 0 fuel r = some (m, r) := rfl

theorem place_rocks_succ (m : TileMap) (n fuel : Nat) (r : RNG) :
    place_rocks m (n + 1) fuel r = (place_rocks m n fuel r).bind (rock_cluster fuel) := by
  rw [place_rocks_eq, place_rocks_eq, List.range_succ, List.foldl_append]
  rfl

theorem cluster_body_rockStep (cx cy : Int) (acc : TileMap × RNG) :
    RockStep acc.1 (cluster_body cx cy acc).1 := by
  obtain ⟨m, r⟩ := acc
  unfold cluster_body
  dsimp only
  split
  · split
    · rename_i hplains
      intro y x
      by_cases hc : y = ((cy + (randint (-1) 1 ((randint (-1) 1 r).2)).1).toNat) ∧
          x = ((cx + (randint (-1) 1 r).1).toNat)
      · obtain ⟨hcy, hcx⟩ := hc
        subst hcy; subst hcx
        rcases getCell_setCell_cases m _ _ ROCK with hset | hset
        · exact Or.inr ⟨hplains, hset⟩
        · exact Or.inl hset
      · rw [getCell_setCell_ne]
        · exact Or.inl rfl
        · by_cases h1 : y = ((cy + (randint (-1) 1 ((randint (-1) 1 r).2)).1).toNat)
          · exact Or.inr (fun hcc => hc ⟨h1, hcc⟩)
          · exact Or.inl h1
    · exact rockStep_refl m
  · exact rockStep_refl m

theorem cluster_body_wf (cx cy : Int) (acc : TileMap × RNG) (h : WF acc.1) :
    WF (cluster_body cx cy acc).1 := by
  obtain ⟨m, r⟩ := acc
  unfold cluster_body
  dsimp only
  split
  · split
    · exact wf_setCell h _ _ _
    · exact h
  · exact h

theorem cluster_body_count (cx cy : Int) (acc : TileMap × RNG) :
    rock_count (cluster_body cx cy acc).1 ≤ rock_count acc.1 + 1 := by
  obtain ⟨m, r⟩ := acc
  unfold cluster_body
  dsimp only
  split
  · split
    · exact rock_count_setCell_le m _ _ ROCK
    · exact Nat.le_succ _
  · exact Nat.le_succ _

theorem cluster_fold_rockStep (cx cy : Int) (l : List Nat) (acc : TileMap × RNG) :
    RockStep acc.1 ((l.foldl (fun acc _ => cluster_body cx cy acc) acc)).1 := by
  refine foldl_pres _ (fun s => RockStep acc.1 s.1) _ ?_ acc (rockStep_refl _)
  intro s j hq hj
  exact rockStep_trans hq (cluster_body_rockStep cx cy s)

theorem cluster_fold_wf (cx cy : Int) (l : List Nat) (acc : TileMap × RNG) (h : WF acc.1) :
    WF ((l.foldl (fun acc _ => cluster_body cx cy acc) acc)).1 := by
  refine foldl_pres _ (fun s => WF s.1) _ ?_ acc h
  intro s j hq hj
  exact cluster_body_wf cx cy s hq

theorem cluster_fold_count (cx cy : Int) (l : List Nat) :
    ∀ acc : TileMap × RNG,
      rock_count ((l.foldl (fun acc _ => cluster_body cx cy acc) acc)).1 ≤
        rock_count acc.1 + l.length := by
  induction l with
  | nil => intro acc; simp
  | cons a t ih =>
    intro acc
    rw [List.foldl_cons]
    have h1 := ih (cluster_body cx cy acc)
    have h2 := cluster_body_count cx cy acc
    have h3 : (a :: t).length = t.length + 1 := rfl
    omega

theorem rock_cluster_rockStep (fuel : Nat) (p q : TileMap × RNG)
    (h : rock_cluster fuel p = some q) : RockStep p.1 q.1 := by
  unfold rock_cluster at h
  cases hps : pick_seed p.1 p.2 fuel with
  | none => rw [hps] at h; exact absurd h (by simp)
  | some trip =>
    obtain ⟨cx, cy, r2⟩ := trip
    rw [hps] at h
    simp only [Option.some.injEq] at h
    rw [← h]
    exact cluster_fold_rockStep cx cy _ _

theorem rock_cluster_wf (fuel : Nat) (p q : TileMap × RNG)
    (h : rock_cluster fuel p = some q) (hwf : WF p.1) : WF q.1 := by
  unfold rock_cluster at h
  cases hps : pick_seed p.1 p.2 fuel with
  | none => rw [hps] at h; exact absurd h (by simp)
  | some trip =>
    obtain ⟨cx, cy, r2⟩ := trip
    rw [hps] at h
    simp only [Option.some.injEq] at h
    rw [← h]
    exact cluster_fold_wf cx cy _ _ hwf

theorem rock_cluster_count (fuel : Nat) (p q : TileMap × RNG)
    (h : rock_cluster fuel p = some q) : rock_count q.1 ≤ rock_count p.1 + 5 := by
  unfold rock_cluster at h
  cases hps : pick_seed p.1 p.2 fuel with
  | none => rw [hps] at h; exact absurd h (by simp)
  | some trip =>
    obtain ⟨cx, cy, r2⟩ := trip
    rw [hps] at h
    simp only [Option.some.injEq] at h
    rw [← h]
    have hcs := randint_bounds 3 5 r2 (by omega)
    have hcf := cluster_fold_count cx cy (List.range (randint 3 5 r2).1.toNat)
      (p.1, (randint 3 5 r2).2)
    rw [List.length_range] at hcf
    dsimp only at hcf
    omega

theorem place_rocks_rockStep (n : Nat) :
    ∀ (m : TileMap) (fuel : Nat) (r : RNG) (m' : TileMap) (r' : RNG),
      place_rocks m n fuel r = some (m', r') → RockStep m m' := by
  induction n with
  | zero =>
    intro m fuel r m' r' h
    rw [place_rocks_zero] at h
    simp only [Option.some.injEq, Prod.mk.injEq] at h
    rw [← h.1]
    exact rockStep_refl m
  | succ k ih =>
    intro m fuel r m' r' h
    rw [place_rocks_succ] at h
    cases hk : place_rocks m k fuel r with
    | none => rw [hk] at h; exact absurd h (by simp)
    | some p =>
      rw [hk] at h
      simp only [Option.some_bind] at h
      exact rockStep_trans (ih m fuel r p.1 p.2 (by rw [hk])) (rock_cluster_rockStep fuel p _ h)

theorem place_rocks_wf (n : Nat) :
    ∀ (m : TileMap) (fuel : Nat) (r : RNG) (m' : TileMap) (r' : RNG),
      place_rocks m n fuel r = some (m', r') → WF m → WF m' := by
  induction n with
  | zero =>
    intro m fuel r m' r' h hwf
    rw [place_rocks_zero] at h
    simp only [Option.some.injEq, Prod.mk.injEq] at h
    rw [← h.1]
    exact hwf
  | succ k ih =>
    intro m fuel r m' r' h hwf
    rw [place_rocks_succ] at h
    cases hk : place_rocks m k fuel r with
    | none => rw [hk] at h; exact absurd h (by simp)
    | some p =>
      rw [hk] at h
      simp only [Option.some_bind] at h
      exact rock_cluster_wf fuel p _ h (ih m fuel r p.1 p.2 (by rw [hk]) hwf)

theorem place_rocks_count (n : Nat) :
    ∀ (m : TileMap) (fuel : Nat) (r : RNG) (m' : TileMap) (r' : RNG),
      place_rocks m n fuel r = some (m', r') → rock_count m' ≤ rock_count m + 5 * n := by
  induction n with
  | zero =>
    intro m fuel r m' r' h
    rw [place_rocks_zero] at h
    simp only [Option.some.injEq, Prod.mk.injEq] at h
    rw [← h.1]
    omega
  | succ k ih =>
    intro m fuel r m' r' h
    rw [place_rocks_succ] at h
    cases hk : place_rocks m k fuel r with
    | none => rw [hk] at h; exact absurd h (by simp)
    | some p =>
      rw [hk] at h
      simp only [Option.some_bind] at h
      have h1 := ih m fuel r p.1 p.2 (by rw [hk])
      have h2 := rock_cluster_count fuel p _ h
      have h3 : rock_count (m', r').1 = rock_count m' := rfl
      omega

/-! Section: Facts about the geometry of the fixed 30×30 configuration -/

theorem circle_not_border :
    ∀ y, y < MAP_HEIGHT → ∀ x, x < MAP_WIDTH → is_in_central_circle x y 15 8 = true →
      ¬(y = 0 ∨ y = MAP_HEIGHT - 1 ∨ x = 0 ∨ x = MAP_WIDTH - 1) := by
  decide

theorem in_river_band_rows (x y : Nat) (hx : x < MAP_WIDTH) (h : in_river_band x y) :
    11 ≤ y ∧ y ≤ 18 := by
  have hb := get_river_row_bounds x hx
  unfold in_river_band at h
  rcases h with h | h | h <;> omega

theorem rockStep_not_mountain {a b : TileMap} (h : RockStep a b) (y x : Nat)
    (hm : getCell a y x ≠ MOUNTAIN) : getCell b y x ≠ MOUNTAIN := by
  rcases h y x with h' | ⟨hp, hr⟩
  · rw [h']; exact hm
  · rw [hr]; decide

theorem rockStep_eq_of_ne_plains {a b : TileMap} (h : RockStep a b) (y x : Nat)
    (hm : getCell a y x ≠ PLAINS) : getCell b y x = getCell a y x := by
  rcases h y x with h' | ⟨hp, hr⟩
  · exact h'
  · exact absurd hp hm

/-! Section: The grid properties the invariant claims are about -/

/-! Section: The two enforcement pipelines, stage by stage -/

theorem getCell_river_enforce (g : TileMap) (hwf : WF g) (y x : Nat)
    (hy : y < MAP_HEIGHT) (hx : x < MAP_WIDTH) :
    getCell (place_river (enforce_constraints g)) y x =
      if in_river_band x y then RIVER
      else if y = 0 ∨ y = MAP_HEIGHT - 1 ∨ x = 0 ∨ x = MAP_WIDTH - 1 then MOUNTAIN
      else if is_in_central_circle x y 15 8 then PLAINS
      else getCell g y x := by
  rw [getCell_place_river _ (enforce_constraints_wf g hwf) y x hy hx,
    getCell_enforce_constraints g hwf y x hy hx]

/-- The value the grid holds just before `place_rocks` runs, in the
mutation pipeline (after sweep, enforce, river, and the rock reset). -/
theorem getCell_clear_river_enforce (s : TileMap) (hwf : WF s) (y x : Nat)
    (hy : y < MAP_HEIGHT) (hx : x < MAP_WIDTH) :
    getCell (clear_rocks (place_river (enforce_constraints s))) y x =
      if in_river_band x y then RIVER
      else if y = 0 ∨ y = MAP_HEIGHT - 1 ∨ x = 0 ∨ x = MAP_WIDTH - 1 then MOUNTAIN
      else if is_in_central_circle x y 15 8 then PLAINS
      else if getCell s y x = ROCK then PLAINS
      else getCell s y x := by
  rw [getCell_clear_rocks _ y x hy hx, getCell_river_enforce s hwf y x hy hx]
  by_cases hband : in_river_band x y
  · rw [if_pos hband, if_pos hband, if_neg (by decide)]
  · rw [if_neg hband, if_neg hband]
    by_cases hb : y = 0 ∨ y = MAP_HEIGHT - 1 ∨ x = 0 ∨ x = MAP_WIDTH - 1
    · rw [if_pos hb, if_pos hb, if_neg (by decide)]
    · rw [if_neg hb, if_neg hb]
      by_cases hc : is_in_central_circle x y 15 8
      · rw [if_pos hc, if_pos hc, if_neg (by decide)]
      · rw [if_neg hc, if_neg hc]

theorem mutate_eq (g : TileMap) (fuel : Nat) (r : RNG) :
    mutate g fuel r =
      place_rocks (clear_rocks (place_river (enforce_constraints (mutate_sweep g r).1)))
        8 fuel (mutate_sweep g r).2 := by
  unfold mutate
  rcases hms : mutate_sweep g r with ⟨m1, r1⟩
  rfl

theorem mutate_sweep_wf (g : TileMap) (r : RNG) (h : WF g) : WF (mutate_sweep g r).1 := by
  unfold mutate_sweep
  refine foldl_pres _ (fun acc : TileMap × RNG => WF acc.1) _ ?_ (g, r) h
  intro s j hq hj
  refine foldl_pres _ (fun acc : TileMap × RNG => WF acc.1) _ ?_ s hq
  intro s2 j2 hq2 hj2
  obtain ⟨m2, r2⟩ := s2
  dsimp only
  split
  · exact wf_setCell hq2 _ _ _
  · exact hq2

/-! Section: Core facts feeding the border / circle / river invariant claims -/

theorem border_ok_of_rockStep (base m' : TileMap) (hstep : RockStep base m')
    (hbase : border_ok base) : border_ok m' := by
  intro y x hy hx hb
  have h := hbase y x hy hx hb
  by_cases hc : (x = 0 ∨ x = MAP_WIDTH - 1) ∧ in_river_band x y
  · rw [if_pos hc] at h ⊢
    rw [rockStep_eq_of_ne_plains hstep y x (by rw [h]; decide)]
    exact h
  · rw [if_neg hc] at h ⊢
    rw [rockStep_eq_of_ne_plains hstep y x (by rw [h]; decide)]
    exact h

theorem border_ok_river_enforce (s : TileMap) (hwf : WF s) :
    border_ok (place_river (enforce_constraints s)) := by
  intro y x hy hx hb
  have hH : MAP_HEIGHT = 30 := rfl
  rw [getCell_river_enforce s hwf y x hy hx]
  by_cases hband : in_river_band x y
  · have hrows := in_river_band_rows x y hx hband
    have hxb : x = 0 ∨ x = MAP_WIDTH - 1 := by
      rcases hb with h | h | h | h
      · omega
      · omega
      · exact Or.inl h
      · exact Or.inr h
    rw [if_pos ⟨hxb, hband⟩, if_pos hband]
  · rw [if_neg (fun hc => hband hc.2), if_neg hband, if_pos hb]

theorem border_ok_clear_rocks (m : TileMap) (h : border_ok m) : border_ok (clear_rocks m) := by
  intro y x hy hx hb
  have hm := h y x hy hx hb
  by_cases hc : (x = 0 ∨ x = MAP_WIDTH - 1) ∧ in_river_band x y
  · rw [if_pos hc] at hm ⊢
    rw [getCell_clear_rocks m y x hy hx, hm, if_neg (by decide)]
  · rw [if_neg hc] at hm ⊢
    rw [getCell_clear_rocks m y x hy hx, hm, if_neg (by decide)]

theorem circle_ok_of_rockStep (base m' : TileMap) (hstep : RockStep base m')
    (hbase : circle_ok base) : circle_ok m' := by
  intro y x hy hx hc
  rcases hbase y x hy hx hc with h | h | ⟨h, hband⟩
  · rcases hstep y x with h' | ⟨hp, hr⟩
    · rw [h', h]; exact Or.inl rfl
    · exact Or.inr (Or.inl hr)
  · rw [rockStep_eq_of_ne_plains hstep y x (by rw [h]; decide), h]
    exact Or.inr (Or.inl rfl)
  · rw [rockStep_eq_of_ne_plains hstep y x (by rw [h]; decide), h]
    exact Or.inr (Or.inr ⟨rfl, hband⟩)

theorem circle_ok_river_enforce (s : TileMap) (hwf : WF s) :
    circle_ok (place_river (enforce_constraints s)) := by
  intro y x hy hx hc
  rw [getCell_river_enforce s hwf y x hy hx]
  by_cases hband : in_river_band x y
  · rw [if_pos hband]; exact Or.inr (Or.inr ⟨rfl, hband⟩)
  · rw [if_neg hband, if_neg (circle_not_border y hy x hx hc), if_pos hc]
    exact Or.inl rfl

theorem circle_ok_clear_rocks (m : TileMap) (h : circle_ok m) : circle_ok (clear_rocks m) := by
  intro y x hy hx hc
  rcases h y x hy hx hc with hv | hv | ⟨hv, hband⟩
  · rw [getCell_clear_rocks m y x hy hx, hv, if_neg (by decide)]
    exact Or.inl rfl
  · rw [getCell_clear_rocks m y x hy hx, hv, if_pos rfl]
    exact Or.inl rfl
  · rw [getCell_clear_rocks m y x hy hx, hv, if_neg (by decide)]
    exact Or.inr (Or.inr ⟨rfl, hband⟩)

theorem river_ok_of_rockStep (base m' : TileMap) (hstep : RockStep base m')
    (h : river_ok base) : river_ok m' := by
  intro x hx
  rcases h x hx with hv | hv | hv
  · exact Or.inl (by rw [rockStep_eq_of_ne_plains hstep _ _ (by rw [hv]; decide), hv])
  · exact Or.inr (Or.inl (by rw [rockStep_eq_of_ne_plains hstep _ _ (by rw [hv]; decide), hv]))
  · exact Or.inr (Or.inr (by rw [rockStep_eq_of_ne_plains hstep _ _ (by rw [hv]; decide), hv]))

theorem mid_band_facts (x : Nat) (hx : x < MAP_WIDTH) :
    (get_river_row x).toNat < MAP_HEIGHT ∧ in_river_band x (get_river_row x).toNat := by
  have hb := get_river_row_bounds x hx
  have hH : MAP_HEIGHT = 30 := rfl
  constructor
  · omega
  · unfold in_river_band
    exact Or.inr (Or.inl (by omega))

theorem river_ok_river_enforce (s : TileMap) (hwf : WF s) :
    river_ok (place_river (enforce_constraints s)) := by
  intro x hx
  have hm := mid_band_facts x hx
  refine Or.inr (Or.inl ?_)
  rw [getCell_place_river _ (enforce_constraints_wf s hwf) _ x hm.1 hx, if_pos hm.2]

theorem river_ok_clear_rocks (m : TileMap) (h : river_ok m) : river_ok (clear_rocks m) := by
  intro x hx
  have hb := get_river_row_bounds x hx
  have hH : MAP_HEIGHT = 30 := rfl
  rcases h x hx with hv | hv | hv
  · exact Or.inl (by rw [getCell_clear_rocks m _ x (by omega) hx, hv, if_neg (by decide)])
  · exact Or.inr (Or.inl (by rw [getCell_clear_rocks m _ x (by omega) hx, hv, if_neg (by decide)]))
  · exact Or.inr (Or.inr (by rw [getCell_clear_rocks m _ x (by omega) hx, hv, if_neg (by decide)]))

theorem river_only_core (g base m' : TileMap) (hstep : RockStep base m')
    (hchar : ∀ y x, y < MAP_HEIGHT → x < MAP_WIDTH → getCell base y x = RIVER →
      in_river_band x y ∨
        (getCell g y x = RIVER ∧
          ¬(y = 0 ∨ y = MAP_HEIGHT - 1 ∨ x = 0 ∨ x = MAP_WIDTH - 1) ∧
          is_in_central_circle x y 15 8 = false)) :
    river_only g m' := by
  intro y x hy hx hr
  have hbase : getCell base y x = RIVER := by
    rcases hstep y x with h' | ⟨hp, hrk⟩
    · rw [← h']; exact hr
    · rw [hr] at hrk; exact absurd hrk (by decide)
  exact hchar y x hy hx hbase

theorem river_char_gen (g : TileMap) (hwf : WF g) :
    ∀ y x, y < MAP_HEIGHT → x < MAP_WIDTH →
      getCell (place_river (enforce_constraints g)) y x = RIVER →
      in_river_band x y ∨
        (getCell g y x = RIVER ∧
          ¬(y = 0 ∨ y = MAP_HEIGHT - 1 ∨ x = 0 ∨ x = MAP_WIDTH - 1) ∧
          is_in_central_circle x y 15 8 = false) := by
  intro y x hy hx hr
  rw [getCell_river_enforce g hwf y x hy hx] at hr
  by_cases hband : in_river_band x y
  · exact Or.inl hband
  · rw [if_neg hband] at hr
    by_cases hb : y = 0 ∨ y = MAP_HEIGHT - 1 ∨ x = 0 ∨ x = MAP_WIDTH - 1
    · rw [if_pos hb] at hr; exact absurd hr (by decide)
    · rw [if_neg hb] at hr
      by_cases hc : is_in_central_circle x y 15 8
      · rw [if_pos hc] at hr; exact absurd hr (by decide)
      · rw [if_neg hc] at hr
        exact Or.inr ⟨hr, hb, Bool.not_eq_true _ ▸ hc⟩

theorem river_char_mut (s : TileMap) (hwf : WF s) :
    ∀ y x, y < MAP_HEIGHT → x < MAP_WIDTH →
      getCell (clear_rocks (place_river (enforce_constraints s))) y x = RIVER →
      in_river_band x y ∨
        (getCell s y x = RIVER ∧
          ¬(y = 0 ∨ y = MAP_HEIGHT - 1 ∨ x = 0 ∨ x = MAP_WIDTH - 1) ∧
          is_in_central_circle x y 15 8 = false) := by
  intro y x hy hx hr
  rw [getCell_clear_river_enforce s hwf y x hy hx] at hr
  by_cases hband : in_river_band x y
  · exact Or.inl hband
  · rw [if_neg hband] at hr
    by_cases hb : y = 0 ∨ y = MAP_HEIGHT - 1 ∨ x = 0 ∨ x = MAP_WIDTH - 1
    · rw [if_pos hb] at hr; exact absurd hr (by decide)
    · rw [if_neg hb] at hr
      by_cases hc : is_in_central_circle x y 15 8
      · rw [if_pos hc] at hr; exact absurd hr (by decide)
      · rw [if_neg hc] at hr
        by_cases hrock : getCell s y x = ROCK
        · rw [if_pos hrock] at hr; exact absurd hr (by decide)
        · rw [if_neg hrock] at hr
          exact Or.inr ⟨hr, hb, Bool.not_eq_true _ ▸ hc⟩

/-! Section: The invariant claims -/

/-- C1 (amended): after every ConstraintEnforcer pass — the one applied
after random generation (`constraint_pass`) and the one inside `mutate` —
every border cell holds Mountain, except the border-column cells (columns
0 and `MAP_WIDTH - 1`) lying in the river band of their column, which hold
River: `place_river` does not restrict its column index, so it overwrites
the border columns inside the band. -/
theorem claim_C1 :
    (∀ (g : TileMap) (fuel : Nat) (r : RNG) (m' : TileMap) (r' : RNG), WF g →
      constraint_pass g fuel r = some (m', r') → border_ok m') ∧
    (∀ (g : TileMap) (fuel : Nat) (r : RNG) (m' : TileMap) (r' : RNG), WF g →
      mutate g fuel r = some (m', r') → border_ok m') := by
  constructor
  · intro g fuel r m' r' hwf hgen
    unfold constraint_pass at hgen
    exact border_ok_of_rockStep _ _ (place_rocks_rockStep 8 _ fuel r m' r' hgen)
      (border_ok_river_enforce g hwf)
  · intro g fuel r m' r' hwf hmut
    rw [mutate_eq] at hmut
    exact border_ok_of_rockStep _ _ (place_rocks_rockStep 8 _ fuel _ m' r' hmut)
      (border_ok_clear_rocks _ (border_ok_river_enforce _ (mutate_sweep_wf g r hwf)))

/-- C2 (amended): after every ConstraintEnforcer pass, every cell within
Euclidean distance 8 of the grid centre holds Plains unless it lies in the
river band of its column (then it holds River, because `place_river` runs
after the circle is painted) or a rock cluster repainted it (then Rock). -/
theorem claim_C2 :
    (∀ (g : TileMap) (fuel : Nat) (r : RNG) (m' : TileMap) (r' : RNG), WF g →
      constraint_pass g fuel r = some (m', r') → circle_ok m') ∧
    (∀ (g : TileMap) (fuel : Nat) (r : RNG) (m' : TileMap) (r' : RNG), WF g →
      mutate g fuel r = some (m', r') → circle_ok m') := by
  constructor
  · intro g fuel r m' r' hwf hgen
    unfold constraint_pass at hgen
    exact circle_ok_of_rockStep _ _ (place_rocks_rockStep 8 _ fuel r m' r' hgen)
      (circle_ok_river_enforce g hwf)
  · intro g fuel r m' r' hwf hmut
    rw [mutate_eq] at hmut
    exact circle_ok_of_rockStep _ _ (place_rocks_rockStep 8 _ fuel _ m' r' hmut)
      (circle_ok_clear_rocks _ (circle_ok_river_enforce _ (mutate_sweep_wf g r hwf)))

/-- C3 (confirmed): after every ConstraintEnforcer pass, for every column
`x` at least one of the three cells at rows `get_river_row x - 1`,
`get_river_row x`, `get_river_row x + 1` holds River. -/
theorem claim_C3 :
    (∀ (g : TileMap) (fuel : Nat) (r : RNG) (m' : TileMap) (r' : RNG), WF g →
      constraint_pass g fuel r = some (m', r') → river_ok m') ∧
    (∀ (g : TileMap) (fuel : Nat) (r : RNG) (m' : TileMap) (r' : RNG), WF g →
      mutate g fuel r = some (m', r') → river_ok m') := by
  constructor
  · intro g fuel r m' r' hwf hgen
    unfold constraint_pass at hgen
    exact river_ok_of_rockStep _ _ (place_rocks_rockStep 8 _ fuel r m' r' hgen)
      (river_ok_river_enforce g hwf)
  · intro g fuel r m' r' hwf hmut
    rw [mutate_eq] at hmut
    exact river_ok_of_rockStep _ _ (place_rocks_rockStep 8 _ fuel _ m' r' hmut)
      (river_ok_clear_rocks _ (river_ok_river_enforce _ (mutate_sweep_wf g r hwf)))

/-- C4 (amended): after every ConstraintEnforcer pass, every River cell
lies in the 3-row river band of its column, or is an interior cell outside
the central circle that already held River in the grid the enforcement
stages started from (the pass input for the generation pipeline, the
post-sweep grid for `mutate`): the enforcer never clears pre-existing
River cells outside the circle and border. -/
theorem claim_C4 :
    (∀ (g : TileMap) (fuel : Nat) (r : RNG) (m' : TileMap) (r' : RNG), WF g →
      constraint_pass g fuel r = some (m', r') → river_only g m') ∧
    (∀ (g : TileMap) (fuel : Nat) (r : RNG) (m' : TileMap) (r' : RNG), WF g →
      mutate g fuel r = some (m', r') → river_only (mutate_sweep g r).1 m') := by
  constructor
  · intro g fuel r m' r' hwf hgen
    unfold constraint_pass at hgen
    exact river_only_core g _ m' (place_rocks_rockStep 8 _ fuel r m' r' hgen)
      (river_char_gen g hwf)
  · intro g fuel r m' r' hwf hmut
    rw [mutate_eq] at hmut
    exact river_only_core _ _ m' (place_rocks_rockStep 8 _ fuel _ m' r' hmut)
      (river_char_mut _ (mutate_sweep_wf g r hwf))

/-- C10 (confirmed): after `mutate` returns, the grid holds at most 40
Rock cells: the rock reset clears every Rock cell before `place_rocks`
repaints at most 8 clusters of at most 5 cells each. -/
theorem claim_C10 :
    ∀ (g : TileMap) (fuel : Nat) (r : RNG) (m' : TileMap) (r' : RNG),
      mutate g fuel r = some (m', r') → rock_count m' ≤ 40 := by
  intro g fuel r m' r' h
  rw [mutate_eq] at h
  have h1 := place_rocks_count 8 _ fuel _ m' r' h
  have h2 : rock_count (clear_rocks (place_river (enforce_constraints (mutate_sweep g r).1))) = 0 := by
    apply rock_count_zero_of_no_rock
    intro y x hy hx
    rw [getCell_clear_rocks _ y x hy hx]
    split
    · decide
    · rename_i hne; exact hne
  omega

/-! Section: Runs of the pipelines under a constant draw stream -/

theorem pick_seed_constRNG (m : TileMap) (c i fuel : Nat)
    (h : getCell m (seedv c).toNat (seedv c).toNat ≠ MOUNTAIN) :
    pick_seed m (constRNG c i) (fuel + 1) =
      some (seedv c, seedv c, constRNG c (i + 2)) := by
  show (if getCell m (seedv c).toNat (seedv c).toNat ≠ MOUNTAIN
      then some (seedv c, seedv c, constRNG c (i + 2))
      else pick_seed m (constRNG c (i + 2)) fuel) =
    some (seedv c, seedv c, constRNG c (i + 2))
  rw [if_pos h]

theorem cluster_body_rng (cx cy : Int) (acc : TileMap × RNG) :
    (cluster_body cx cy acc).2 = (randint (-1) 1 (randint (-1) 1 acc.2).2).2 := by
  obtain ⟨m, r⟩ := acc
  unfold cluster_body
  dsimp only
  split
  · split
    · rfl
    · rfl
  · rfl

theorem cluster_fold_rng (cx cy : Int) (c : Nat) (l : List Nat) (acc : TileMap × RNG)
    (h : ∃ j, acc.2 = constRNG c j) :
    ∃ j, ((l.foldl (fun acc _ => cluster_body cx cy acc) acc)).2 = constRNG c j := by
  refine foldl_pres _ (fun s => ∃ j, s.2 = constRNG c j) _ ?_ acc h
  intro s k hq hk
  obtain ⟨j, hj⟩ := hq
  refine ⟨j + 2, ?_⟩
  rw [cluster_body_rng, hj]
  rfl

theorem rock_cluster_constRNG_some (fuel c i : Nat) (p : TileMap × RNG)
    (hr : p.2 = constRNG c i)
    (h : getCell p.1 (seedv c).toNat (seedv c).toNat ≠ MOUNTAIN) :
    ∃ q, rock_cluster (fuel + 1) p = some q ∧ (∃ j, q.2 = constRNG c j) ∧
      getCell q.1 (seedv c).toNat (seedv c).toNat ≠ MOUNTAIN := by
  unfold rock_cluster
  rw [hr, pick_seed_constRNG p.1 c i fuel h]
  refine ⟨_, rfl, ?_, ?_⟩
  · refine cluster_fold_rng _ _ c _ _ ⟨i + 3, ?_⟩
    rfl
  · exact rockStep_not_mountain (cluster_fold_rockStep _ _ _ _) _ _ h

theorem place_rocks_constRNG_some (n : Nat) : ∀ (fuel c i : Nat) (m : TileMap),
    getCell m (seedv c).toNat (seedv c).toNat ≠ MOUNTAIN →
    ∃ m' j, place_rocks m n (fuel + 1) (constRNG c i) = some (m', constRNG c j) ∧
      getCell m' (seedv c).toNat (seedv c).toNat ≠ MOUNTAIN := by
  induction n with
  | zero =>
    intro fuel c i m h
    exact ⟨m, i, place_rocks_zero m (fuel + 1) (constRNG c i), h⟩
  | succ k ih =>
    intro fuel c i m h
    obtain ⟨m1, j1, heq1, hcell1⟩ := ih fuel c i m h
    obtain ⟨q, heq2, ⟨j2, hj2⟩, hcell2⟩ :=
      rock_cluster_constRNG_some fuel c j1 (m1, constRNG c j1) rfl hcell1
    refine ⟨q.1, j2, ?_, hcell2⟩
    rw [place_rocks_succ, heq1]
    simp only [Option.some_bind]
    rw [heq2]
    rw [← hj2]

theorem wf_plains30 : WF plains30 := by
  unfold WF
  exact ⟨by decide, by decide⟩

theorem wf_riverdot : WF riverdot := wf_setCell wf_plains30 3 3 RIVER

theorem seedv_one : (seedv 1).toNat = 6 := by decide

theorem mutate_sweep_ones (g : TileMap) (i : Nat) :
    (mutate_sweep g (constRNG 1 i)).1 = g ∧
      ∃ j, (mutate_sweep g (constRNG 1 i)).2 = constRNG 1 j := by
  unfold mutate_sweep
  refine foldl_pres _
    (fun acc : TileMap × RNG => acc.1 = g ∧ ∃ j, acc.2 = constRNG 1 j) _ ?_
    (g, constRNG 1 i) ⟨rfl, i, rfl⟩
  intro s k hq hk
  refine foldl_pres _
    (fun acc : TileMap × RNG => acc.1 = g ∧ ∃ j, acc.2 = constRNG 1 j) _ ?_ s hq
  intro s2 k2 hq2 hk2
  obtain ⟨m2, r2⟩ := s2
  obtain ⟨hm2, j3, hj3⟩ := hq2
  dsimp only at hm2 hj3 ⊢
  subst hj3
  have hb : (rand_lt_rate (constRNG 1 j3)).1 = false := rfl
  rw [hb]
  exact ⟨hm2, j3 + 1, rfl⟩

theorem rv_plains_seed :
    getCell (place_river (enforce_constraints plains30)) (seedv 1).toNat (seedv 1).toNat ≠
      MOUNTAIN := by
  rw [seedv_one, getCell_river_enforce plains30 wf_plains30 6 6 (by decide) (by decide),
    if_neg (by decide), if_neg (by decide), if_neg (by decide)]
  decide

theorem cp_plains30 :
    ∃ m' j, constraint_pass plains30 1 (constRNG 1 0) = some (m', constRNG 1 j) := by
  obtain ⟨m', j, heq, _⟩ := place_rocks_constRNG_some 8 0 1 0 _ rv_plains_seed
  exact ⟨m', j, heq⟩

/-- C1 as the specification states it is false: on the all-Plains input,
after the full ConstraintEnforcer pass the border cell at row 15,
column 0 holds River (painted by `place_river`, whose column loop also
visits the border columns), not Mountain — whatever the rock draws do,
since rocks never overwrite River. -/
theorem claim_C1_counterexample :
    Option.map (fun p => getCell p.1 15 0) (constraint_pass plains30 1 (constRNG 1 0)) =
        some RIVER ∧ RIVER ≠ MOUNTAIN := by
  constructor
  · obtain ⟨m', j, heq⟩ := cp_plains30
    rw [heq]
    have hstep : RockStep (place_river (enforce_constraints plains30)) m' :=
      place_rocks_rockStep 8 _ 1 _ m' _ heq
    have hrv : getCell (place_river (enforce_constraints plains30)) 15 0 = RIVER := by
      rw [getCell_river_enforce plains30 wf_plains30 15 0 (by decide) (by decide),
        if_pos (by decide)]
    show some (getCell m' 15 0) = some RIVER
    rw [rockStep_eq_of_ne_plains hstep 15 0 (by rw [hrv]; decide), hrv]
  · decide

theorem claim_C1_witness :
    WF plains30 ∧
      Option.map (fun p => getCell p.1 0 5) (constraint_pass plains30 1 (constRNG 1 0)) =
        some MOUNTAIN := by
  refine ⟨wf_plains30, ?_⟩
  obtain ⟨m', j, heq⟩ := cp_plains30
  rw [heq]
  have hb := (claim_C1.1 plains30 1 (constRNG 1 0) m' _ wf_plains30 heq) 0 5
    (by decide) (by decide) (Or.inl rfl)
  rw [if_neg (by decide)] at hb
  show some (getCell m' 0 5) = some MOUNTAIN
  rw [hb]

/-- C2 as the specification states it is false: the grid centre (15, 15)
lies inside the central circle yet holds River after the pass, because
`place_river` runs after the circle is painted and its band crosses the
circle. -/
theorem claim_C2_counterexample :
    Option.map (fun p => getCell p.1 15 15) (constraint_pass plains30 1 (constRNG 1 0)) =
        some RIVER ∧ is_in_central_circle 15 15 15 8 = true ∧ RIVER ≠ PLAINS := by
  refine ⟨?_, by decide, by decide⟩
  obtain ⟨m', j, heq⟩ := cp_plains30
  rw [heq]
  have hstep : RockStep (place_river (enforce_constraints plains30)) m' :=
    place_rocks_rockStep 8 _ 1 _ m' _ heq
  have hrv : getCell (place_river (enforce_constraints plains30)) 15 15 = RIVER := by
    rw [getCell_river_enforce plains30 wf_plains30 15 15 (by decide) (by decide),
      if_pos (by decide)]
  show some (getCell m' 15 15) = some RIVER
  rw [rockStep_eq_of_ne_plains hstep 15 15 (by rw [hrv]; decide), hrv]

theorem claim_C2_witness :
    WF plains30 ∧
      Option.map (fun p => decide (getCell p.1 15 15 = PLAINS ∨ getCell p.1 15 15 = ROCK ∨
          (getCell p.1 15 15 = RIVER ∧ in_river_band 15 15)))
        (constraint_pass plains30 1 (constRNG 1 0)) = some true := by
  refine ⟨wf_plains30, ?_⟩
  obtain ⟨m', j, heq⟩ := cp_plains30
  rw [heq]
  have hc := (claim_C2.1 plains30 1 (constRNG 1 0) m' _ wf_plains30 heq) 15 15
    (by decide) (by decide) (by decide)
  show some (decide _) = some true
  rw [decide_eq_true hc]

theorem claim_C3_witness :
    WF plains30 ∧
      Option.map (fun p => decide (getCell p.1 (get_river_row 0 - 1).toNat 0 = RIVER ∨
          getCell p.1 (get_river_row 0).toNat 0 = RIVER ∨
          getCell p.1 (get_river_row 0 + 1).toNat 0 = RIVER))
        (constraint_pass plains30 1 (constRNG 1 0)) = some true := by
  refine ⟨wf_plains30, ?_⟩
  obtain ⟨m', j, heq⟩ := cp_plains30
  rw [heq]
  have hc := (claim_C3.1 plains30 1 (constRNG 1 0) m' _ wf_plains30 heq) 0 (by decide)
  show some (decide _) = some true
  rw [decide_eq_true hc]

/-- C4 as the specification states it is false: a pre-existing River cell
at (3, 3) — outside the band of column 3 — survives the whole
ConstraintEnforcer pass, because the enforcer never clears River cells
outside the circle and border. -/
theorem claim_C4_counterexample :
    Option.map (fun p => getCell p.1 3 3) (constraint_pass riverdot 1 (constRNG 1 0)) =
        some RIVER ∧ ¬ in_river_band 3 3 := by
  constructor
  · have hseed : getCell (place_river (enforce_constraints riverdot))
        (seedv 1).toNat (seedv 1).toNat ≠ MOUNTAIN := by
      rw [seedv_one, getCell_river_enforce riverdot wf_riverdot 6 6 (by decide) (by decide),
        if_neg (by decide), if_neg (by decide), if_neg (by decide)]
      decide
    obtain ⟨m', j, heq, _⟩ := place_rocks_constRNG_some 8 0 1 0 _ hseed
    have heq' : constraint_pass riverdot 1 (constRNG 1 0) = some (m', constRNG 1 j) := heq
    rw [heq']
    have hstep : RockStep (place_river (enforce_constraints riverdot)) m' :=
      place_rocks_rockStep 8 _ 1 _ m' _ heq
    have hrv : getCell (place_river (enforce_constraints riverdot)) 3 3 = RIVER := by
      rw [getCell_river_enforce riverdot wf_riverdot 3 3 (by decide) (by decide),
        if_neg (by decide), if_neg (by decide), if_neg (by decide)]
      decide
    show some (getCell m' 3 3) = some RIVER
    rw [rockStep_eq_of_ne_plains hstep 3 3 (by rw [hrv]; decide), hrv]
  · decide

theorem claim_C4_witness :
    WF riverdot ∧
      Option.map (fun p => decide (getCell p.1 3 3 = RIVER →
          (in_river_band 3 3 ∨ (getCell riverdot 3 3 = RIVER ∧
            ¬((3:Nat) = 0 ∨ (3:Nat) = MAP_HEIGHT - 1 ∨ (3:Nat) = 0 ∨ (3:Nat) = MAP_WIDTH - 1) ∧
            is_in_central_circle 3 3 15 8 = false))))
        (constraint_pass riverdot 1 (constRNG 1 0)) = some true := by
  refine ⟨wf_riverdot, ?_⟩
  have hseed : getCell (place_river (enforce_constraints riverdot))
      (seedv 1).toNat (seedv 1).toNat ≠ MOUNTAIN := by
    rw [seedv_one, getCell_river_enforce riverdot wf_riverdot 6 6 (by decide) (by decide),
      if_neg (by decide), if_neg (by decide), if_neg (by decide)]
    decide
  obtain ⟨m', j, heq, _⟩ := place_rocks_constRNG_some 8 0 1 0 _ hseed
  have heq' : constraint_pass riverdot 1 (constRNG 1 0) = some (m', constRNG 1 j) := heq
  rw [heq']
  have hc := (claim_C4.1 riverdot 1 (constRNG 1 0) m' _ wf_riverdot heq) 3 3
    (by decide) (by decide)
  show some (decide _) = some true
  rw [decide_eq_true hc]

theorem claim_C10_witness :
    Option.map (fun p => decide (rock_count p.1 ≤ 40)) (mutate plains30 1 (constRNG 1 0)) =
      some true := by
  obtain ⟨hsw, j0, hj0⟩ := mutate_sweep_ones plains30 0
  have hcell : getCell (clear_rocks (place_river (enforce_constraints
      (mutate_sweep plains30 (constRNG 1 0)).1))) (seedv 1).toNat (seedv 1).toNat ≠
      MOUNTAIN := by
    rw [seedv_one, hsw, getCell_clear_river_enforce plains30 wf_plains30 6 6
      (by decide) (by decide),
      if_neg (by decide), if_neg (by decide), if_neg (by decide), if_neg (by decide)]
    decide
  obtain ⟨m', j, heq, _⟩ := place_rocks_constRNG_some 8 0 1 j0 _ hcell
  have hm : mutate plains30 1 (constRNG 1 0) = some (m', constRNG 1 j) := by
    rw [mutate_eq, hj0]
    exact heq
  rw [hm]
  show some (decide _) = some true
  rw [decide_eq_true (claim_C10 plains30 1 (constRNG 1 0) m' _ hm)]

/-! Section: The fitness formula as the specification words it -/

theorem filter_length_eq_sum {α : Type} (p : α → Bool) (l : List α) :
    (l.filter p).length = (l.map (fun a => if p a then (1 : Nat) else 0)).sum := by
  induction l with
  | nil => rfl
  | cons a t ih =>
    rw [List.filter_cons, List.map_cons, List.sum_cons]
    by_cases h : p a
    · rw [if_pos h, if_pos h, List.length_cons, ih]
      omega
    · rw [if_neg h, if_neg (by simpa using h), ih]
      omega

theorem river_found_eq (m : TileMap) (x : Nat) (hx : x < MAP_WIDTH) :
    (([-1, 0, 1] : List Int).any (fun offset =>
        decide (0 ≤ get_river_row x + offset) &&
          decide (get_river_row x + offset < (MAP_HEIGHT : Int)) &&
          decide (getCell m (get_river_row x + offset).toNat x = RIVER)) = true) ↔
      (getCell m (get_river_row x - 1).toNat x = RIVER ∨
        getCell m (get_river_row x).toNat x = RIVER ∨
        getCell m (get_river_row x + 1).toNat x = RIVER) := by
  have hb := get_river_row_bounds x hx
  have hH : (MAP_HEIGHT : Int) = 30 := rfl
  have h1 : get_river_row x + -1 = get_river_row x - 1 := by ring
  have h0 : get_river_row x + 0 = get_river_row x := by ring
  simp only [List.any_cons, List.any_nil, Bool.or_false, Bool.or_eq_true, Bool.and_eq_true,
    decide_eq_true_eq, h1, h0]
  constructor
  · rintro (⟨_, h⟩ | ⟨_, h⟩ | ⟨_, h⟩)
    exacts [Or.inl h, Or.inr (Or.inl h), Or.inr (Or.inr h)]
  · rintro (h | h | h)
    · exact Or.inl ⟨⟨by omega, by omega⟩, h⟩
    · exact Or.inr (Or.inl ⟨⟨by omega, by omega⟩, h⟩)
    · exact Or.inr (Or.inr ⟨⟨by omega, by omega⟩, h⟩)

theorem central_body_eq (m : TileMap) (y : Nat) : ∀ (s : Int) (x : Nat),
    (if is_in_central_circle x y 15 8 then
      (if getCell m y x = PLAINS then s + 1 else s - 1) else s) =
    s + (if is_in_central_circle x y 15 8 then
      (if getCell m y x = PLAINS then (1 : Int) else -1) else 0) := by
  intro s x
  split
  · split
    · rfl
    · ring
  · ring

theorem mountain_body_eq (m : TileMap) (x : Nat) : ∀ (s : Int) (y : Nat),
    (if getCell m y x = MOUNTAIN then
      (if is_in_central_circle x y 15 13 then s - 10 else s + 5) else s) =
    s + (if getCell m y x = MOUNTAIN then
      (if is_in_central_circle x y 15 13 then (-10 : Int) else 5) else 0) := by
  intro s y
  split
  · split
    · ring
    · rfl
  · ring

theorem river_body_eq (m : TileMap) : ∀ (s : Int) (x : Nat),
    (if (([-1, 0, 1] : List Int).any (fun offset =>
        decide (0 ≤ get_river_row x + offset) &&
          decide (get_river_row x + offset < (MAP_HEIGHT : Int)) &&
          decide (getCell m (get_river_row x + offset).toNat x = RIVER)))
      then s + 50 else s - 500) =
    s + (if (([-1, 0, 1] : List Int).any (fun offset =>
        decide (0 ≤ get_river_row x + offset) &&
          decide (get_river_row x + offset < (MAP_HEIGHT : Int)) &&
          decide (getCell m (get_river_row x + offset).toNat x = RIVER)))
      then (50 : Int) else -500) := by
  intro s x
  split
  · rfl
  · ring

theorem rock_body_eq (m : TileMap) (y : Nat) : ∀ (s : Int) (x : Nat),
    (if getCell m y x = ROCK then s + 1 else s) =
    s + (if getCell m y x = ROCK then (1 : Int) else 0) := by
  intro s x
  split
  · rfl
  · ring

theorem sum_int_eq_cast_sum_nat {α : Type} (f : α → Int) (g : α → Nat)
    (h : ∀ a, f a = (g a : Int)) : ∀ l : List α, (l.map f).sum = ((l.map g).sum : Int) := by
  intro l
  induction l with
  | nil => rfl
  | cons a t ih =>
    rw [List.map_cons, List.map_cons, List.sum_cons, List.sum_cons, h, ih]
    push_cast
    ring

theorem rock_count_cast (m : TileMap) :
    ((List.range MAP_HEIGHT).map (fun y =>
      ((List.range MAP_WIDTH).map (fun x =>
        if getCell m y x = ROCK then (1 : Int) else 0)).sum)).sum =
    ((((List.range MAP_HEIGHT).map (fun y =>
      ((List.range MAP_WIDTH).filter (fun x => decide (getCell m y x = ROCK))).length)).sum :
        Nat) : Int) := by
  refine sum_int_eq_cast_sum_nat _ _ (fun y => ?_) _
  rw [filter_length_eq_sum]
  refine sum_int_eq_cast_sum_nat _ _ (fun x => ?_) _
  by_cases h : getCell m y x = ROCK
  · simp [h]
  · simp [h]

/-- C5 (confirmed): for every grid, `calculate_fitness` computes exactly
the sum of the four terms the specification describes. -/
theorem claim_C5 : ∀ m : TileMap, calculate_fitness m = spec_score m := by
  intro m
  unfold calculate_fitness spec_score
  dsimp only
  rw [foldl_eq_add_sum
      (fun y => ((List.range MAP_WIDTH).map (fun x =>
        if is_in_central_circle x y 15 8 then
          (if getCell m y x = PLAINS then (1 : Int) else -1)
        else 0)).sum)
      _ (fun s y => foldl_eq_add_sum _ _ (central_body_eq m y) _ s)]
  rw [foldl_eq_add_sum
      (fun x => ((List.range MAP_HEIGHT).map (fun y =>
        if getCell m y x = MOUNTAIN then
          (if is_in_central_circle x y 15 13 then (-10 : Int) else 5)
        else 0)).sum)
      _ (fun s x => foldl_eq_add_sum _ _ (mountain_body_eq m x) _ s)]
  rw [foldl_eq_add_sum
      (fun x => if (([-1, 0, 1] : List Int).any (fun offset =>
          decide (0 ≤ get_river_row x + offset) &&
            decide (get_river_row x + offset < (MAP_HEIGHT : Int)) &&
            decide (getCell m (get_river_row x + offset).toNat x = RIVER)))
        then (50 : Int) else -500)
      _ (river_body_eq m)]
  rw [foldl_eq_add_sum
      (fun y => ((List.range MAP_WIDTH).map (fun x =>
        if getCell m y x = ROCK then (1 : Int) else 0)).sum)
      _ (fun s y => foldl_eq_add_sum _ _ (rock_body_eq m y) _ s)]
  rw [zero_add, zero_add, rock_count_cast]
  have hriver : ((List.range MAP_WIDTH).map
      (fun x => if (([-1, 0, 1] : List Int).any (fun offset =>
          decide (0 ≤ get_river_row x + offset) &&
            decide (get_river_row x + offset < (MAP_HEIGHT : Int)) &&
            decide (getCell m (get_river_row x + offset).toNat x = RIVER)))
        then (50 : Int) else -500)).sum =
      ((List.range MAP_WIDTH).map (fun x =>
        if getCell m (get_river_row x - 1).toNat x = RIVER ∨
            getCell m (get_river_row x).toNat x = RIVER ∨
            getCell m (get_river_row x + 1).toNat x = RIVER
        then (50 : Int) else -500)).sum := by
    refine congrArg List.sum (List.map_congr_left (fun x hx => ?_))
    exact if_congr (river_found_eq m x (List.mem_range.mp hx)) rfl rfl
  rw [hriver]
  set c : Nat := ((List.range MAP_HEIGHT).map (fun y =>
    ((List.range MAP_WIDTH).filter (fun x => decide (getCell m y x = ROCK))).length)).sum with hc
  by_cases hcond : 20 ≤ c ∧ c ≤ 40
  · rw [if_pos (show 20 ≤ (c : Int) ∧ (c : Int) ≤ 40 by omega), if_pos hcond]
  · rw [if_neg (show ¬(20 ≤ (c : Int) ∧ (c : Int) ≤ 40) by omega), if_neg hcond]
    ring

/-! Section: C6: crossover -/

theorem crossover_eq (map1 map2 : TileMap) :
    crossover map1 map2 = (List.range MAP_HEIGHT).map
      (fun y => if y < MAP_HEIGHT / 2 then map1.getD y [] else map2.getD y []) := by
  unfold crossover
  dsimp only
  have key : ∀ (l : List Nat) (acc : TileMap),
      l.foldl (fun child y => if y < MAP_HEIGHT / 2 then child ++ [map1.getD y []]
        else child ++ [map2.getD y []]) acc =
      acc ++ l.map (fun y => if y < MAP_HEIGHT / 2 then map1.getD y [] else map2.getD y []) := by
    intro l
    induction l with
    | nil => intro acc; simp
    | cons a t ih =>
      intro acc
      rw [List.foldl_cons, ih, List.map_cons]
      by_cases h : a < MAP_HEIGHT / 2
      · rw [if_pos h, if_pos h]
        simp
      · rw [if_neg h, if_neg h]
        simp
  rw [key]
  simp

/-- C6 (confirmed): for any two grids of full height, `crossover` returns
a child whose rows 0 through `MAP_HEIGHT / 2 - 1` are `map1`'s rows and
whose rows `MAP_HEIGHT / 2` through `MAP_HEIGHT - 1` are `map2`'s rows;
the split row is the fixed integer floor `MAP_HEIGHT / 2` (the function
draws no randomness at all). -/
theorem claim_C6 :
    ∀ (map1 map2 : TileMap), map1.length = MAP_HEIGHT → map2.length = MAP_HEIGHT →
      (crossover map1 map2).length = MAP_HEIGHT ∧
      ∀ y, y < MAP_HEIGHT →
        (crossover map1 map2).getD y [] =
          if y < MAP_HEIGHT / 2 then map1.getD y [] else map2.getD y [] := by
  intro m1 m2 h1 h2
  rw [crossover_eq]
  constructor
  · rw [List.length_map, List.length_range]
  · intro y hy
    rw [List.getD_eq_getElem?_getD, List.getElem?_map, List.getElem?_range hy]
    rfl

theorem claim_C6_witness :
    plains30.length = MAP_HEIGHT ∧ riverdot.length = MAP_HEIGHT ∧
      (crossover plains30 riverdot).getD 3 [] = plains30.getD 3 [] ∧
      (crossover plains30 riverdot).getD 20 [] = riverdot.getD 20 [] := by
  refine ⟨by decide, by decide, ?_, ?_⟩
  · have h := (claim_C6 plains30 riverdot (by decide) (by decide)).2 3 (by decide)
    rw [h, if_pos (by decide)]
  · have h := (claim_C6 plains30 riverdot (by decide) (by decide)).2 20 (by decide)
    rw [h, if_neg (by decide)]

/-! Section: C7: elitism -/

theorem zip_fst_eq_fitness (pop : List TileMap) :
    ∀ p ∈ (pop.map calculate_fitness).zip pop, p.1 = calculate_fitness p.2 := by
  induction pop with
  | nil => intro p hp; exact absurd hp (List.not_mem_nil p)
  | cons a t ih =>
    intro p hp
    rw [List.map_cons, List.zip_cons_cons] at hp
    rcases List.mem_cons.mp hp with h | h
    · rw [h]
    · exact ih p h

theorem sorted_pairs_fst (pop : List TileMap) :
    ((((pop.map calculate_fitness).zip pop).mergeSort
        (fun a b => decide (b.1 ≤ a.1))).map Prod.fst) =
      (pop.map calculate_fitness).mergeSort (fun a b => decide (b ≤ a)) := by
  haveI : IsAntisymm Int (fun a b => b ≤ a) := ⟨fun a b h1 h2 => le_antisymm h2 h1⟩
  apply List.eq_of_perm_of_sorted (r := fun a b : Int => b ≤ a)
  · refine ((List.mergeSort_perm _ _).map Prod.fst).trans ?_
    rw [List.map_fst_zip _ _ (by rw [List.length_map])]
    exact (List.mergeSort_perm _ _).symm
  · have hs := @List.sorted_mergeSort (Int × TileMap)
      (fun a b => decide (b.1 ≤ a.1))
      (fun a b c hab hbc => by
        simp only [decide_eq_true_eq] at hab hbc ⊢
        exact le_trans hbc hab)
      (fun a b => by
        simp only [Bool.or_eq_true, decide_eq_true_eq]
        exact le_total b.1 a.1)
      ((pop.map calculate_fitness).zip pop)
    exact List.Pairwise.map _ (fun a b h => by simpa using h) hs
  · have hs := @List.sorted_mergeSort Int (fun a b => decide (b ≤ a))
      (fun a b c hab hbc => by
        simp only [decide_eq_true_eq] at hab hbc ⊢
        exact le_trans hbc hab)
      (fun a b => by
        simp only [Bool.or_eq_true, decide_eq_true_eq]
        exact le_total b a)
      (pop.map calculate_fitness)
    exact hs.imp (fun h => by simpa using h)

theorem sort_by_fitness_scores (pop : List TileMap) :
    (sort_by_fitness (pop.map calculate_fitness) pop).map calculate_fitness =
      (pop.map calculate_fitness).mergeSort (fun a b => decide (b ≤ a)) := by
  unfold sort_by_fitness
  rw [List.map_map]
  calc (((pop.map calculate_fitness).zip pop).mergeSort
          (fun a b => decide (b.1 ≤ a.1))).map (calculate_fitness ∘ Prod.snd)
      = (((pop.map calculate_fitness).zip pop).mergeSort
          (fun a b => decide (b.1 ≤ a.1))).map Prod.fst :=
        List.map_congr_left (fun p hp =>
          (zip_fst_eq_fitness pop p ((List.mergeSort_perm _ _).subset hp)).symm)
    _ = (pop.map calculate_fitness).mergeSort (fun a b => decide (b ≤ a)) :=
        sorted_pairs_fst pop

theorem sort_by_fitness_length (scores : List Int) (pop : List TileMap)
    (h : scores.length = pop.length) :
    (sort_by_fitness scores pop).length = pop.length := by
  unfold sort_by_fitness
  rw [List.length_map, List.length_mergeSort, List.length_zip, h, min_self]

theorem sort_by_fitness_mem (scores : List Int) (pop : List TileMap) (q : TileMap)
    (h : q ∈ sort_by_fitness scores pop) : q ∈ pop := by
  unfold sort_by_fitness at h
  obtain ⟨p, hp, hpq⟩ := List.mem_map.mp h
  have hp2 := (List.mergeSort_perm _ _).subset hp
  rw [← hpq]
  exact (List.of_mem_zip hp2).2

theorem ng_fold_take5 (S : List TileMap) (fuel : Nat) :
    ∀ (l : List Nat) (acc : Option (List TileMap × RNG)) (np : List TileMap) (r' : RNG),
      (∀ np₂ r₂, acc = some (np₂, r₂) → np₂.take 5 = S.take 5 ∧ 5 ≤ np₂.length) →
      l.foldl (fun acc _ => acc.bind (fun p =>
        (mutate (crossover (rand_choice (S.take 15) p.2).1
            (rand_choice (S.take 15) (rand_choice (S.take 15) p.2).2).1) fuel
          (rand_choice (S.take 15) (rand_choice (S.take 15) p.2).2).2).bind
          (fun q => some (p.1 ++ [q.1], q.2)))) acc = some (np, r') →
      np.take 5 = S.take 5 ∧ 5 ≤ np.length := by
  intro l
  induction l with
  | nil =>
    intro acc np r' hacc h
    exact hacc np r' h
  | cons a t ih =>
    intro acc np r' hacc h
    rw [List.foldl_cons] at h
    refine ih _ np r' ?_ h
    intro np₂ r₂ hc
    cases acc with
    | none => exact absurd hc (by simp)
    | some p =>
      obtain ⟨np₁, r₁⟩ := p
      obtain ⟨htake, hl5⟩ := hacc np₁ r₁ rfl
      rw [Option.some_bind, Option.bind_eq_some] at hc
      obtain ⟨q, hq1, hq2⟩ := hc
      simp only [Option.some.injEq, Prod.mk.injEq] at hq2
      rw [← hq2.1]
      constructor
      · rw [List.take_append_of_le_length hl5, htake]
      · rw [List.length_append]
        omega

/-- C7 (confirmed): in one generation step, the five grids carried as
elites are the first five of the fitness-sorted population, unchanged by
the crossover-and-mutate reproduction that fills the remaining slots, so
their fitness scores are exactly the top five fitness scores of the
previous generation. -/
theorem claim_C7 :
    ∀ (population : List TileMap) (fuel : Nat) (r : RNG) (np : List TileMap) (r' : RNG),
      5 ≤ population.length →
      next_generation population fuel r = some (np, r') →
      np.take 5 = (sort_by_fitness (population.map calculate_fitness) population).take 5 ∧
        (np.take 5).map calculate_fitness =
          ((population.map calculate_fitness).mergeSort (fun a b => decide (b ≤ a))).take 5 := by
  intro pop fuel r np r' hlen h
  have hslen : 5 ≤ (sort_by_fitness (pop.map calculate_fitness) pop).length := by
    rw [sort_by_fitness_length _ _ (List.length_map _ _)]
    exact hlen
  have hmain : np.take 5 =
      (sort_by_fitness (pop.map calculate_fitness) pop).take 5 := by
    unfold next_generation at h
    dsimp only at h
    refine (ng_fold_take5 (sort_by_fitness (pop.map calculate_fitness) pop) fuel _ _ np r'
      ?_ h).1
    intro np₂ r₂ hc
    simp only [Option.some.injEq, Prod.mk.injEq] at hc
    rw [← hc.1]
    constructor
    · simp [List.take_take]
    · rw [List.length_take]
      omega
  refine ⟨hmain, ?_⟩
  rw [hmain, ← sort_by_fitness_scores pop, List.map_take]

theorem rand_choice_mem (l : List TileMap) (r : RNG) (h : l ≠ []) :
    (rand_choice l r).1 ∈ l := by
  unfold rand_choice RNG.next
  dsimp only
  have hlen : 0 < l.length := List.length_pos.mpr h
  have hidx : (r.s r.i) % l.length < l.length := Nat.mod_lt _ hlen
  rw [List.getD_eq_getElem?_getD, List.getElem?_eq_getElem hidx]
  exact List.getElem_mem hidx

theorem crossover_plains : crossover plains30 plains30 = plains30 := by decide

theorem mutate_ones_some (g : TileMap) (i : Nat) (hwf : WF g)
    (hcell : getCell g 6 6 ≠ MOUNTAIN) :
    ∃ m' j, mutate g 1 (constRNG 1 i) = some (m', constRNG 1 j) := by
  obtain ⟨hsw, j0, hj0⟩ := mutate_sweep_ones g i
  have hc : getCell (clear_rocks (place_river (enforce_constraints
      (mutate_sweep g (constRNG 1 i)).1))) (seedv 1).toNat (seedv 1).toNat ≠ MOUNTAIN := by
    rw [seedv_one, hsw, getCell_clear_river_enforce g hwf 6 6 (by decide) (by decide),
      if_neg (by decide), if_neg (by decide), if_neg (by decide)]
    split
    · decide
    · exact hcell
  obtain ⟨m', j, heq, _⟩ := place_rocks_constRNG_some 8 0 1 j0 _ hc
  exact ⟨m', j, by rw [mutate_eq, hj0]; exact heq⟩

theorem ng_fold_ones (S : List TileMap) (hS : ∀ q ∈ S.take 15, q = plains30)
    (hne : S.take 15 ≠ []) :
    ∀ (l : List Nat) (np₁ : List TileMap) (i : Nat),
      ∃ np j, l.foldl (fun acc _ => acc.bind (fun p =>
        (mutate (crossover (rand_choice (S.take 15) p.2).1
            (rand_choice (S.take 15) (rand_choice (S.take 15) p.2).2).1) 1
          (rand_choice (S.take 15) (rand_choice (S.take 15) p.2).2).2).bind
          (fun q => some (p.1 ++ [q.1], q.2))))
        (some (np₁, constRNG 1 i)) = some (np, constRNG 1 j) := by
  intro l
  induction l with
  | nil =>
    intro np₁ i
    exact ⟨np₁, i, rfl⟩
  | cons a t ih =>
    intro np₁ i
    rw [List.foldl_cons]
    have hp1 : (rand_choice (S.take 15) (constRNG 1 i)).1 = plains30 :=
      hS _ (rand_choice_mem _ _ hne)
    have hr1 : (rand_choice (S.take 15) (constRNG 1 i)).2 = constRNG 1 (i + 1) := rfl
    have hp2 : (rand_choice (S.take 15) (constRNG 1 (i + 1))).1 = plains30 :=
      hS _ (rand_choice_mem _ _ hne)
    have hr2 : (rand_choice (S.take 15) (constRNG 1 (i + 1))).2 = constRNG 1 (i + 2) := rfl
    obtain ⟨m₂, j₂, hm⟩ := mutate_ones_some plains30 (i + 2) wf_plains30 (by decide)
    have hbody : (some (np₁, constRNG 1 i)).bind (fun p : List TileMap × RNG =>
        (mutate (crossover (rand_choice (S.take 15) p.2).1
            (rand_choice (S.take 15) (rand_choice (S.take 15) p.2).2).1) 1
          (rand_choice (S.take 15) (rand_choice (S.take 15) p.2).2).2).bind
          (fun q => some (p.1 ++ [q.1], q.2))) = some (np₁ ++ [m₂], constRNG 1 j₂) := by
      rw [Option.some_bind]
      dsimp only
      rw [hr1, hp1, hp2, hr2, crossover_plains, hm, Option.some_bind]
    rw [hbody]
    exact ih (np₁ ++ [m₂]) j₂

theorem next_generation_pop6_some :
    ∃ np j, next_generation (List.replicate 6 plains30) 1 (constRNG 1 0) =
      some (np, constRNG 1 j) := by
  have hlen : (sort_by_fitness ((List.replicate 6 plains30).map calculate_fitness)
      (List.replicate 6 plains30)).length = 6 := by
    rw [sort_by_fitness_length _ _ (List.length_map _ _), List.length_replicate]
  have hS : ∀ q ∈ (sort_by_fitness ((List.replicate 6 plains30).map calculate_fitness)
      (List.replicate 6 plains30)).take 15, q = plains30 := by
    intro q hq
    exact List.eq_of_mem_replicate
      (sort_by_fitness_mem _ _ q (List.mem_of_mem_take hq))
  have hne : (sort_by_fitness ((List.replicate 6 plains30).map calculate_fitness)
      (List.replicate 6 plains30)).take 15 ≠ [] := by
    apply List.length_pos.mp
    rw [List.length_take, hlen]
    omega
  unfold next_generation
  dsimp only
  exact ng_fold_ones _ hS hne _ _ 0

theorem claim_C7_witness :
    5 ≤ (List.replicate 6 plains30).length ∧
      Option.map (fun p : List TileMap × RNG => decide (p.1.take 5 =
          (sort_by_fitness ((List.replicate 6 plains30).map calculate_fitness)
            (List.replicate 6 plains30)).take 5 ∧
        (p.1.take 5).map calculate_fitness =
          (((List.replicate 6 plains30).map calculate_fitness).mergeSort
            (fun a b => decide (b ≤ a))).take 5))
        (next_generation (List.replicate 6 plains30) 1 (constRNG 1 0)) = some true := by
  refine ⟨by simp, ?_⟩
  obtain ⟨np, j, heq⟩ := next_generation_pop6_some
  rw [heq]
  have hc := claim_C7 (List.replicate 6 plains30) 1 (constRNG 1 0) np (constRNG 1 j)
    (by simp) heq
  show some (decide _) = some true
  rw [decide_eq_true hc]

/-! Section: C8: what the run does and does not depend on -/

theorem agree_head {r r' : RNG} (h : Agree r r') : r.s r.i = r'.s r'.i := by
  have h0 := h 0
  simpa using h0

theorem agree_tail {r r' : RNG} (h : Agree r r') :
    Agree ⟨r.s, r.i + 1⟩ ⟨r'.s, r'.i + 1⟩ := by
  intro n
  have hn := h (n + 1)
  have e1 : r.i + (n + 1) = r.i + 1 + n := by omega
  have e2 : r'.i + (n + 1) = r'.i + 1 + n := by omega
  rw [e1, e2] at hn
  exact hn

theorem agree_randint (lo hi : Int) {r r' : RNG} (h : Agree r r') :
    (randint lo hi r).1 = (randint lo hi r').1 ∧
      Agree (randint lo hi r).2 (randint lo hi r').2 := by
  unfold randint RNG.next
  dsimp only
  exact ⟨by rw [agree_head h], agree_tail h⟩

theorem foldl_agree {α ι : Type} (f : α × RNG → ι → α × RNG)
    (hf : ∀ p q j, p.1 = q.1 → Agree p.2 q.2 →
      (f p j).1 = (f q j).1 ∧ Agree (f p j).2 (f q j).2) :
    ∀ (l : List ι) (p q : α × RNG), p.1 = q.1 → Agree p.2 q.2 →
      (l.foldl f p).1 = (l.foldl f q).1 ∧ Agree (l.foldl f p).2 (l.foldl f q).2 := by
  intro l
  induction l with
  | nil => intro p q h1 h2; exact ⟨h1, h2⟩
  | cons a t ih =>
    intro p q h1 h2
    rw [List.foldl_cons, List.foldl_cons]
    obtain ⟨h1', h2'⟩ := hf p q a h1 h2
    exact ih _ _ h1' h2'

theorem foldl_rel {σ ι : Type} (R : σ → σ → Prop) (f : σ → ι → σ)
    (hf : ∀ s s' j, R s s' → R (f s j) (f s' j)) :
    ∀ (l : List ι) (s s' : σ), R s s' → R (l.foldl f s) (l.foldl f s') := by
  intro l
  induction l with
  | nil => intro s s' h; exact h
  | cons a t ih =>
    intro s s' h
    rw [List.foldl_cons, List.foldl_cons]
    exact ih _ _ (hf s s' a h)

theorem generate_random_map_agree {r r' : RNG} (h : Agree r r') :
    (generate_random_map r).1 = (generate_random_map r').1 ∧
      Agree (generate_random_map r).2 (generate_random_map r').2 := by
  unfold generate_random_map
  refine foldl_agree _ ?_ _ _ _ rfl h
  intro p q y hpq hA
  obtain ⟨mp, rp⟩ := p
  obtain ⟨mq, rq⟩ := q
  dsimp only at hpq ⊢
  subst hpq
  have hin := foldl_agree
    (fun (acc : List Int × RNG) x =>
      let (row, r) := acc
      if x = 0 ∨ x = MAP_WIDTH - 1 ∨ y = 0 ∨ y = MAP_HEIGHT - 1 then
        (row ++ [MOUNTAIN], r)
      else
        let (v, r) := randint 0 3 r
        (row ++ [v], r))
    (by
      intro p q x hpq hA
      obtain ⟨rowp, rp⟩ := p
      obtain ⟨rowq, rq⟩ := q
      dsimp only at hpq ⊢
      subst hpq
      split
      · exact ⟨rfl, hA⟩
      · have hv := agree_randint 0 3 hA
        exact ⟨by rw [hv.1], hv.2⟩)
    (List.range MAP_WIDTH) ([], rp) ([], rq) rfl hA
  constructor
  · dsimp only
    rw [hin.1]
  · exact hin.2

theorem pick_seed_succ (m : TileMap) (r : RNG) (k : Nat) :
    pick_seed m r (k + 1) =
      if getCell m (randint 5 ((MAP_HEIGHT : Int) - 5)
            (randint 5 ((MAP_WIDTH : Int) - 5) r).2).1.toNat
          (randint 5 ((MAP_WIDTH : Int) - 5) r).1.toNat ≠ MOUNTAIN
      then some ((randint 5 ((MAP_WIDTH : Int) - 5) r).1,
        (randint 5 ((MAP_HEIGHT : Int) - 5) (randint 5 ((MAP_WIDTH : Int) - 5) r).2).1,
        (randint 5 ((MAP_HEIGHT : Int) - 5) (randint 5 ((MAP_WIDTH : Int) - 5) r).2).2)
      else pick_seed m (randint 5 ((MAP_HEIGHT : Int) - 5)
        (randint 5 ((MAP_WIDTH : Int) - 5) r).2).2 k := rfl

theorem pick_seed_agree (m : TileMap) (fuel : Nat) :
    ∀ {r r' : RNG}, Agree r r' →
      (pick_seed m r fuel = none ∧ pick_seed m r' fuel = none) ∨
      (∃ cx cy s s', pick_seed m r fuel = some (cx, cy, s) ∧
        pick_seed m r' fuel = some (cx, cy, s') ∧ Agree s s') := by
  induction fuel with
  | zero => intro r r' h; exact Or.inl ⟨rfl, rfl⟩
  | succ k ih =>
    intro r r' h
    have h1 := agree_randint 5 ((MAP_WIDTH : Int) - 5) h
    have h2 := agree_randint 5 ((MAP_HEIGHT : Int) - 5) h1.2
    rw [pick_seed_succ m r k, pick_seed_succ m r' k, ← h1.1, ← h2.1]
    by_cases hc : getCell m (randint 5 ((MAP_HEIGHT : Int) - 5)
        (randint 5 ((MAP_WIDTH : Int) - 5) r).2).1.toNat
        (randint 5 ((MAP_WIDTH : Int) - 5) r).1.toNat ≠ MOUNTAIN
    · rw [if_pos hc, if_pos hc]
      exact Or.inr ⟨_, _, _, _, rfl, rfl, h2.2⟩
    · rw [if_neg hc, if_neg hc]
      exact ih h2.2

theorem cluster_body_agree (cx cy : Int) (p q : TileMap × RNG)
    (hm : p.1 = q.1) (hA : Agree p.2 q.2) :
    (cluster_body cx cy p).1 = (cluster_body cx cy q).1 ∧
      Agree (cluster_body cx cy p).2 (cluster_body cx cy q).2 := by
  obtain ⟨mp, rp⟩ := p
  obtain ⟨mq, rq⟩ := q
  dsimp only at hm hA
  subst hm
  unfold cluster_body
  have h1 := agree_randint (-1) 1 hA
  have h2 := agree_randint (-1) 1 h1.2
  dsimp only
  rw [← h1.1, ← h2.1]
  split
  · split
    · exact ⟨rfl, h2.2⟩
    · exact ⟨rfl, h2.2⟩
  · exact ⟨rfl, h2.2⟩

theorem rock_cluster_agree (fuel : Nat) (p q : TileMap × RNG)
    (hm : p.1 = q.1) (hA : Agree p.2 q.2) :
    OptAgree (rock_cluster fuel p) (rock_cluster fuel q) := by
  unfold rock_cluster
  rw [hm]
  rcases pick_seed_agree q.1 fuel hA with ⟨hn, hn'⟩ | ⟨cx, cy, s, s', hs, hs', hA2⟩
  · rw [hn, hn']
    exact Or.inl ⟨rfl, rfl⟩
  · rw [hs, hs']
    dsimp only
    have h3 := agree_randint 3 5 hA2
    have hfold := foldl_agree (fun acc _ => cluster_body cx cy acc)
      (fun p q j hpq hA => cluster_body_agree cx cy p q hpq hA)
      (List.range (randint 3 5 s).1.toNat) (q.1, (randint 3 5 s).2)
      (q.1, (randint 3 5 s').2) rfl h3.2
    rw [← h3.1]
    exact Or.inr ⟨_, _, rfl, rfl, hfold.1, hfold.2⟩

theorem place_rocks_agree (n : Nat) :
    ∀ (m : TileMap) (fuel : Nat) (r r' : RNG), Agree r r' →
      OptAgree (place_rocks m n fuel r) (place_rocks m n fuel r') := by
  induction n with
  | zero =>
    intro m fuel r r' h
    rw [place_rocks_zero, place_rocks_zero]
    exact Or.inr ⟨_, _, rfl, rfl, rfl, h⟩
  | succ k ih =>
    intro m fuel r r' h
    rw [place_rocks_succ, place_rocks_succ]
    rcases ih m fuel r r' h with ⟨hn, hn'⟩ | ⟨u, v, hu, hv, hm, hA⟩
    · rw [hn, hn']
      exact Or.inl ⟨rfl, rfl⟩
    · rw [hu, hv, Option.some_bind, Option.some_bind]
      exact rock_cluster_agree fuel u v hm hA

theorem init_population_eq (fuel : Nat) (r : RNG) :
    init_population fuel r = (List.range POPULATION_SIZE).foldl
      (fun acc _ => acc.bind (fun p =>
        (place_rocks (place_river (enforce_constraints (generate_random_map p.2).1)) 8 fuel
          (generate_random_map p.2).2).bind (fun q => some (p.1 ++ [q.1], q.2))))
      (some (([] : List TileMap), r)) := by
  unfold init_population
  congr 1

theorem init_fold_agree (fuel : Nat) :
    ∀ (l : List Nat) (o o' : Option (List TileMap × RNG)),
      ((o = none ∧ o' = none) ∨
        ∃ u v, o = some u ∧ o' = some v ∧ u.1 = v.1 ∧ Agree u.2 v.2) →
      ((l.foldl (fun acc _ => acc.bind (fun p =>
          (place_rocks (place_river (enforce_constraints (generate_random_map p.2).1)) 8 fuel
            (generate_random_map p.2).2).bind (fun q => some (p.1 ++ [q.1], q.2)))) o = none ∧
        l.foldl (fun acc _ => acc.bind (fun p =>
          (place_rocks (place_river (enforce_constraints (generate_random_map p.2).1)) 8 fuel
            (generate_random_map p.2).2).bind (fun q => some (p.1 ++ [q.1], q.2)))) o' = none) ∨
        ∃ u v, l.foldl (fun acc _ => acc.bind (fun p =>
          (place_rocks (place_river (enforce_constraints (generate_random_map p.2).1)) 8 fuel
            (generate_random_map p.2).2).bind (fun q => some (p.1 ++ [q.1], q.2)))) o = some u ∧
          l.foldl (fun acc _ => acc.bind (fun p =>
            (place_rocks (place_river (enforce_constraints (generate_random_map p.2).1)) 8 fuel
              (generate_random_map p.2).2).bind (fun q => some (p.1 ++ [q.1], q.2)))) o' = some v ∧
          u.1 = v.1 ∧ Agree u.2 v.2) := by
  intro l
  induction l with
  | nil => intro o o' h; exact h
  | cons a t ih =>
    intro o o' h
    rw [List.foldl_cons, List.foldl_cons]
    refine ih _ _ ?_
    rcases h with ⟨hn, hn'⟩ | ⟨u, v, hu, hv, hm, hA⟩
    · rw [hn, hn']
      exact Or.inl ⟨rfl, rfl⟩
    · rw [hu, hv, Option.some_bind, Option.some_bind]
      have hgen := generate_random_map_agree hA
      rw [← hgen.1]
      rcases place_rocks_agree 8 (place_river (enforce_constraints (generate_random_map u.2).1))
        fuel (generate_random_map u.2).2 (generate_random_map v.2).2 hgen.2 with
        ⟨hn, hn'⟩ | ⟨w, w', hw, hw', hwm, hwA⟩
      · rw [hn, hn']
        exact Or.inl ⟨rfl, rfl⟩
      · rw [hw, hw', Option.some_bind, Option.some_bind]
        exact Or.inr ⟨_, _, rfl, rfl, by rw [hm, hwm], hwA⟩

theorem init_population_agree (fuel : Nat) (r r' : RNG) (h : Agree r r') :
    (init_population fuel r = none ∧ init_population fuel r' = none) ∨
      ∃ u v, init_population fuel r = some u ∧ init_population fuel r' = some v ∧
        u.1 = v.1 ∧ Agree u.2 v.2 := by
  rw [init_population_eq fuel r, init_population_eq fuel r']
  exact init_fold_agree fuel (List.range POPULATION_SIZE) _ _
    (Or.inr ⟨([], r), ([], r'), rfl, rfl, rfl, h⟩)

theorem rand_lt_rate_agree {r r' : RNG} (h : Agree r r') :
    (rand_lt_rate r).1 = (rand_lt_rate r').1 ∧
      Agree (rand_lt_rate r).2 (rand_lt_rate r').2 := by
  unfold rand_lt_rate RNG.next
  dsimp only
  exact ⟨by rw [agree_head h], agree_tail h⟩

theorem rand_choice_agree (l : List TileMap) {r r' : RNG} (h : Agree r r') :
    (rand_choice l r).1 = (rand_choice l r').1 ∧
      Agree (rand_choice l r).2 (rand_choice l r').2 := by
  unfold rand_choice RNG.next
  dsimp only
  exact ⟨by rw [agree_head h], agree_tail h⟩

theorem sweep_inner_agree (y : Nat) (l : List Nat) (p q : TileMap × RNG)
    (h1 : p.1 = q.1) (h2 : Agree p.2 q.2) :
    (l.foldl (fun (acc : TileMap × RNG) x =>
      if (rand_lt_rate acc.2).1 then
        (setCell acc.1 y x (randint 0 3 (rand_lt_rate acc.2).2).1,
          (randint 0 3 (rand_lt_rate acc.2).2).2)
      else (acc.1, (rand_lt_rate acc.2).2)) p).1 =
    (l.foldl (fun (acc : TileMap × RNG) x =>
      if (rand_lt_rate acc.2).1 then
        (setCell acc.1 y x (randint 0 3 (rand_lt_rate acc.2).2).1,
          (randint 0 3 (rand_lt_rate acc.2).2).2)
      else (acc.1, (rand_lt_rate acc.2).2)) q).1 ∧
    Agree (l.foldl (fun (acc : TileMap × RNG) x =>
      if (rand_lt_rate acc.2).1 then
        (setCell acc.1 y x (randint 0 3 (rand_lt_rate acc.2).2).1,
          (randint 0 3 (rand_lt_rate acc.2).2).2)
      else (acc.1, (rand_lt_rate acc.2).2)) p).2
      (l.foldl (fun (acc : TileMap × RNG) x =>
      if (rand_lt_rate acc.2).1 then
        (setCell acc.1 y x (randint 0 3 (rand_lt_rate acc.2).2).1,
          (randint 0 3 (rand_lt_rate acc.2).2).2)
      else (acc.1, (rand_lt_rate acc.2).2)) q).2 := by
  refine foldl_agree _ ?_ l p q h1 h2
  intro p q x hpq hA
  dsimp only
  have hb := rand_lt_rate_agree hA
  rw [hpq, hb.1]
  split
  · have hv := agree_randint 0 3 hb.2
    exact ⟨by rw [hv.1], hv.2⟩
  · exact ⟨rfl, hb.2⟩

theorem mutate_sweep_agree (g : TileMap) {r r' : RNG} (h : Agree r r') :
    (mutate_sweep g r).1 = (mutate_sweep g r').1 ∧
      Agree (mutate_sweep g r).2 (mutate_sweep g r').2 := by
  unfold mutate_sweep
  refine foldl_agree _ ?_ _ _ _ rfl h
  intro p q y hpq hA
  exact sweep_inner_agree y (List.range MAP_WIDTH) p q hpq hA

theorem mutate_agree (g : TileMap) (fuel : Nat) {r r' : RNG} (h : Agree r r') :
    OptAgree (mutate g fuel r) (mutate g fuel r') := by
  rw [mutate_eq, mutate_eq]
  have hs := mutate_sweep_agree g h
  rw [hs.1]
  exact place_rocks_agree 8 _ fuel _ _ hs.2

theorem ng_fold_agree (S : List TileMap) (fuel : Nat) :
    ∀ (l : List Nat) (o o' : Option (List TileMap × RNG)),
      ((o = none ∧ o' = none) ∨
        ∃ u v, o = some u ∧ o' = some v ∧ u.1 = v.1 ∧ Agree u.2 v.2) →
      ((l.foldl (fun acc _ => acc.bind (fun p =>
          (mutate (crossover (rand_choice (S.take 15) p.2).1
              (rand_choice (S.take 15) (rand_choice (S.take 15) p.2).2).1) fuel
            (rand_choice (S.take 15) (rand_choice (S.take 15) p.2).2).2).bind
            (fun q => some (p.1 ++ [q.1], q.2)))) o = none ∧
        l.foldl (fun acc _ => acc.bind (fun p =>
          (mutate (crossover (rand_choice (S.take 15) p.2).1
              (rand_choice (S.take 15) (rand_choice (S.take 15) p.2).2).1) fuel
            (rand_choice (S.take 15) (rand_choice (S.take 15) p.2).2).2).bind
            (fun q => some (p.1 ++ [q.1], q.2)))) o' = none) ∨
        ∃ u v, l.foldl (fun acc _ => acc.bind (fun p =>
          (mutate (crossover (rand_choice (S.take 15) p.2).1
              (rand_choice (S.take 15) (rand_choice (S.take 15) p.2).2).1) fuel
            (rand_choice (S.take 15) (rand_choice (S.take 15) p.2).2).2).bind
            (fun q => some (p.1 ++ [q.1], q.2)))) o = some u ∧
          l.foldl (fun acc _ => acc.bind (fun p =>
            (mutate (crossover (rand_choice (S.take 15) p.2).1
                (rand_choice (S.take 15) (rand_choice (S.take 15) p.2).2).1) fuel
              (rand_choice (S.take 15) (rand_choice (S.take 15) p.2).2).2).bind
              (fun q => some (p.1 ++ [q.1], q.2)))) o' = some v ∧
          u.1 = v.1 ∧ Agree u.2 v.2) := by
  intro l
  induction l with
  | nil => intro o o' h; exact h
  | cons a t ih =>
    intro o o' h
    rw [List.foldl_cons, List.foldl_cons]
    refine ih _ _ ?_
    rcases h with ⟨hn, hn'⟩ | ⟨u, v, hu, hv, hm, hA⟩
    · rw [hn, hn']
      exact Or.inl ⟨rfl, rfl⟩
    · rw [hu, hv, Option.some_bind, Option.some_bind]
      have h1 := rand_choice_agree (S.take 15) hA
      have h2 := rand_choice_agree (S.take 15) h1.2
      rw [hm, h1.1, h2.1]
      rcases mutate_agree (crossover (rand_choice (S.take 15) v.2).1
          (rand_choice (S.take 15) (rand_choice (S.take 15) v.2).2).1) fuel h2.2 with
        ⟨hn, hn'⟩ | ⟨w, w', hw, hw', hwm, hwA⟩
      · rw [hn, hn']
        exact Or.inl ⟨rfl, rfl⟩
      · rw [hw, hw', Option.some_bind, Option.some_bind]
        exact Or.inr ⟨_, _, rfl, rfl, by rw [hwm], hwA⟩

theorem next_generation_agree (population : List TileMap) (fuel : Nat) (r r' : RNG)
    (h : Agree r r') :
    (next_generation population fuel r = none ∧
        next_generation population fuel r' = none) ∨
      ∃ u v, next_generation population fuel r = some u ∧
        next_generation population fuel r' = some v ∧ u.1 = v.1 ∧ Agree u.2 v.2 := by
  unfold next_generation
  dsimp only
  exact ng_fold_agree (sort_by_fitness (population.map calculate_fitness) population)
    fuel _ _ _ (Or.inr ⟨_, _, rfl, rfl, rfl, h⟩)

theorem rg_fold_agree (fuel : Nat) :
    ∀ (l : List Nat) (o o' : Option (List TileMap × RNG)),
      ((o = none ∧ o' = none) ∨
        ∃ u v, o = some u ∧ o' = some v ∧ u.1 = v.1 ∧ Agree u.2 v.2) →
      ((l.foldl (fun acc _ => acc.bind (fun q => next_generation q.1 fuel q.2)) o = none ∧
        l.foldl (fun acc _ => acc.bind (fun q => next_generation q.1 fuel q.2)) o' = none) ∨
        ∃ u v,
          l.foldl (fun acc _ => acc.bind (fun q => next_generation q.1 fuel q.2)) o = some u ∧
          l.foldl (fun acc _ => acc.bind (fun q => next_generation q.1 fuel q.2)) o' = some v ∧
          u.1 = v.1 ∧ Agree u.2 v.2) := by
  intro l
  induction l with
  | nil => intro o o' h; exact h
  | cons a t ih =>
    intro o o' h
    rw [List.foldl_cons, List.foldl_cons]
    refine ih _ _ ?_
    rcases h with ⟨hn, hn'⟩ | ⟨u, v, hu, hv, hm, hA⟩
    · rw [hn, hn']
      exact Or.inl ⟨rfl, rfl⟩
    · rw [hu, hv, Option.some_bind, Option.some_bind, hm]
      exact next_generation_agree v.1 fuel u.2 v.2 hA

theorem run_generations_agree (gens fuel : Nat) (u v : List TileMap × RNG)
    (hm : u.1 = v.1) (hA : Agree u.2 v.2) :
    (run_generations gens fuel u = none ∧ run_generations gens fuel v = none) ∨
      ∃ w w', run_generations gens fuel u = some w ∧ run_generations gens fuel v = some w' ∧
        w.1 = w'.1 ∧ Agree w.2 w'.2 := by
  unfold run_generations
  exact rg_fold_agree fuel (List.range gens) (some u) (some v)
    (Or.inr ⟨u, v, rfl, rfl, hm, hA⟩)

/-- C8 (amended): a full run — population initialisation, every iteration
of the generation loop, and the final best-map selection — is a
deterministic function of the values drawn from the process-wide
generator, given the fixed (hard-coded) configuration: any two generator
states that will yield the same draw stream return the same best grid and
the same fitness value.  No `randomSeed` exists anywhere in the program
and the generator is never seeded, so this process-wide draw stream is
exactly what the run depends on. -/
theorem claim_C8 :
    ∀ (gens fuel : Nat) (r r' : RNG), Agree r r' →
      full_run gens fuel r = full_run gens fuel r' := by
  intro gens fuel r r' h
  unfold full_run
  rcases init_population_agree fuel r r' h with ⟨hn, hn'⟩ | ⟨u, v, hu, hv, hm, hA⟩
  · rw [hn, hn']
  · rw [hu, hv, Option.some_bind, Option.some_bind]
    rcases run_generations_agree gens fuel u v hm hA with
      ⟨hn, hn'⟩ | ⟨w, w', hw, hw', hwm, _⟩
    · rw [hn, hn']
    · rw [hw, hw', Option.some_bind, Option.some_bind, hwm]

theorem claim_C8_witness :
    Agree ⟨fun k => k, 5⟩ ⟨fun k => k + 5, 0⟩ ∧
      full_run 1 1 ⟨fun k => k, 5⟩ = full_run 1 1 ⟨fun k => k + 5, 0⟩ :=
  ⟨fun n => by dsimp only; omega,
    claim_C8 1 1 ⟨fun k => k, 5⟩ ⟨fun k => k + 5, 0⟩ (fun n => by dsimp only; omega)⟩

/-- C8 as the specification states it is false: every configuration value
is a fixed hard-coded constant and no `randomSeed` setting exists, yet two
runs differing only in the state of the process-wide generator already
produce different first random maps — the run is not a function of the
configuration (with or without a seed value), but of the implicit
process-wide generator state the claim excludes. -/
theorem claim_C8_counterexample :
    (generate_random_map ⟨fun _ => 0, 0⟩).1 ≠ (generate_random_map ⟨fun _ => 1, 0⟩).1 := by
  decide

theorem claim_C5_witness : calculate_fitness plains30 = spec_score plains30 :=
  claim_C5 plains30
